import Mathlib

/-
Verification of the sdfx STEP AP214 exporter (package step: converter.go,
writer.go, entities; render STEP glue).

Shallow embedding notes.
* Go float64 coordinates are modelled as exact rationals.  All predicates the
  converter branches on (lexicographic vertex comparison, the 1e-6 point
  tolerance, the 1e-9 degeneracy test) are polynomial comparisons, modelled
  exactly.
* Go maps are modelled as insertion-ordered association lists.  The point
  cache is the only map the source iterates over (getOrCreatePoint ranges
  over the map); Go leaves map iteration order unspecified, so the scan order
  is an explicit parameter (ScanOrder) of the converter.  `scanInsertion`
  fixes insertion order; theorems about order (in)dependence quantify over
  the parameter.
* `v3.Vec.Equals`, `Triangle3.Degenerate`, `Normalize` live outside the given
  sources and are modelled from the spec where marked below.
* Exact real arithmetic replaces floating point: `Normalize` of a rational
  vector is generally irrational, but the converter only ever uses the
  normalized vector for exact cache keying and as emitted ratios.  Direction
  entities therefore store the canonical rational representative of the ray
  (canonDir); two vectors get the same key iff their real normalizations
  coincide (canonDir_eq_iff below), and the semantics of the stored ratios is
  recovered by real normalization (see the DIRECTION unit-length theorem).
-/

set_option allowUnsafeReducibility true
attribute [local semireducible] Rat.add Rat.sub Rat.mul Rat.inv Rat.neg
set_option maxRecDepth 200000

namespace Step

/-- v3.Vec: a 3D coordinate triple. -/
structure Vec where
  x : ℚ
  y : ℚ
  z : ℚ
deriving DecidableEq, Repr

instance : Zero Vec := ⟨⟨0, 0, 0⟩⟩

/-- v3.Vec.Sub. -/
instance : Sub Vec := ⟨fun a b => ⟨a.x - b.x, a.y - b.y, a.z - b.z⟩⟩

/-- Dot product (v3.Vec.Dot). -/
def Vec.dot (a b : Vec) : ℚ := a.x * b.x + a.y * b.y + a.z * b.z

/-- Cross product (v3.Vec.Cross). -/
def Vec.cross (a b : Vec) : Vec :=
  ⟨a.y * b.z - a.z * b.y, a.z * b.x - a.x * b.z, a.x * b.y - a.y * b.x⟩

/-- Squared Euclidean length (Length2 in v3). -/
def Vec.sqLength (a : Vec) : ℚ := a.dot a

/-- Squared Euclidean distance between two coordinate triples. -/
def sqDist (a b : Vec) : ℚ := (a - b).sqLength

/-- The L1 norm, used only to pick a canonical rational representative of a
ray (see canonDir). -/
def Vec.l1norm (a : Vec) : ℚ := |a.x| + |a.y| + |a.z|

/-- Scalar multiple of a vector. -/
def Vec.smulQ (c : ℚ) (a : Vec) : Vec := ⟨c * a.x, c * a.y, c * a.z⟩

/-- The canonical rational representative of the ray through d: d scaled to
L1 norm one (0 for d = 0).  In the source getOrCreateDirection keys its cache
on d.Normalize(), the Euclidean normalization; over exact arithmetic two
vectors share that key iff they are positive multiples of each other, which
is exactly when their canonDir agree (canonDir_eq_iff), so keying on canonDir
reproduces the source's cache behavior while staying rational. -/
def canonDir (d : Vec) : Vec := if d = 0 then 0 else Vec.smulQ (1 / d.l1norm) d

/-- The point-dedup tolerance, 1e-6 (converter.go getOrCreatePoint). -/
def tolQ : ℚ := 1 / 1000000

/-- The degeneracy tolerance passed to Triangle3.Degenerate, 1e-9. -/
def epsQ : ℚ := 1 / 1000000000

/-- sdf.Triangle3: an ordered triple of vertices. -/
structure Triangle where
  v0 : Vec
  v1 : Vec
  v2 : Vec
deriving DecidableEq, Repr

/-- Modelled from the spec: sdf.Triangle3.Degenerate (the sdf package is not
among the given sources).  Spec 4.2: a triangle is degenerate when its
squared area is at most 1e-18 or any edge's squared length is at most 1e-18;
with eps = 1e-9 both bounds are eps^2 (the squared area is
sqLength(cross)/4). -/
def Triangle.degenerate (t : Triangle) (eps : ℚ) : Bool :=
  decide ((t.v1 - t.v0).sqLength ≤ eps ^ 2) ||
  decide ((t.v2 - t.v1).sqLength ≤ eps ^ 2) ||
  decide ((t.v0 - t.v2).sqLength ≤ eps ^ 2) ||
  decide (((t.v1 - t.v0).cross (t.v2 - t.v0)).sqLength / 4 ≤ eps ^ 2)

/-- edgeKey (converter.go): an ordered pair of endpoints. -/
structure EdgeKey where
  v1 : Vec
  v2 : Vec
deriving DecidableEq, Repr

/-- The strict lexicographic comparison used by newEdgeKey (converter.go
lines 27-28). -/
def lexLt (a b : Vec) : Bool :=
  decide (a.x < b.x) || (decide (a.x = b.x) && decide (a.y < b.y)) ||
  (decide (a.x = b.x) && decide (a.y = b.y) && decide (a.z < b.z))

/-- newEdgeKey: canonicalize an unordered endpoint pair by lexicographic
order on (x, y, z). -/
def newEdgeKey (v1 v2 : Vec) : EdgeKey :=
  if lexLt v1 v2 then ⟨v1, v2⟩ else ⟨v2, v1⟩

/-- The STEP entity kinds the triangle path constructs (entities.go).  Ids
are carried in the first argument.  The edgeCurve constructor additionally
records the exact endpoint pair it was keyed on (srcKey); this ghost field is
not serialized and only instruments the edge-dedup invariant. -/
inductive Entity where
  | applicationContext (eid : ℕ) (application : String)
  | lengthUnit (eid : ℕ)
  | planeAngleUnit (eid : ℕ)
  | solidAngleUnit (eid : ℕ)
  | uncertaintyMeasureWithUnit (eid : ℕ) (value : ℚ) (unit : ℕ) (name description : String)
  | geometricRepresentationContext (eid : ℕ) (contextIdentifier contextType : String)
      (coordinateSpaceDimension : ℕ) (uncertainty units : List ℕ)
  | productContext (eid : ℕ) (name : String) (frameOfReference : ℕ) (disciplineType : String)
  | product (eid : ℕ) (name description : String) (frameOfReference : List ℕ)
  | productDefinitionFormation (eid : ℕ) (description : String) (ofProduct : ℕ)
  | productDefinitionContext (eid : ℕ) (name : String) (frameOfReference : ℕ)
      (lifeCycleStage : String)
  | productDefinition (eid : ℕ) (description : String) (formation frameOfReference : ℕ)
  | productDefinitionShape (eid : ℕ) (name description : String) (definition : ℕ)
  | cartesianPoint (eid : ℕ) (name : String) (coordinates : Vec)
  | direction (eid : ℕ) (name : String) (directionRatios : Vec)
  | vector (eid : ℕ) (name : String) (orientation : ℕ) (magnitudeSq : ℚ)
  | axis2Placement3D (eid : ℕ) (name : String) (location axis refDirection : ℕ)
  | line (eid : ℕ) (name : String) (pnt dir : ℕ)
  | vertexPoint (eid : ℕ) (name : String) (vertexGeometry : ℕ)
  | edgeCurve (eid : ℕ) (name : String) (edgeStart edgeEnd edgeGeometry : ℕ)
      (sameSense : Bool) (srcKey : EdgeKey)
  | orientedEdge (eid : ℕ) (name : String) (edgeElement : ℕ) (orientation : Bool)
  | edgeLoop (eid : ℕ) (name : String) (edgeList : List ℕ)
  | faceOuterBound (eid : ℕ) (name : String) (bound : ℕ) (orientation : Bool)
  | plane (eid : ℕ) (name : String) (position : ℕ)
  | advancedFace (eid : ℕ) (name : String) (bounds : List ℕ) (faceGeometry : ℕ)
      (sameSense : Bool)
  | closedShell (eid : ℕ) (name : String) (faces : List ℕ)
  | manifoldSolidBrep (eid : ℕ) (name : String) (outer : ℕ)
  | advancedBrepShapeRepresentation (eid : ℕ) (name : String) (items : List ℕ)
      (contextOfItems : ℕ)
  | shapeDefinitionRepresentation (eid : ℕ) (definition usedRepresentation : ℕ)
deriving DecidableEq, Repr

/-- Entity.ID(). -/
def Entity.eid : Entity → ℕ
  | .applicationContext i _ => i
  | .lengthUnit i => i
  | .planeAngleUnit i => i
  | .solidAngleUnit i => i
  | .uncertaintyMeasureWithUnit i _ _ _ _ => i
  | .geometricRepresentationContext i _ _ _ _ _ => i
  | .productContext i _ _ _ => i
  | .product i _ _ _ => i
  | .productDefinitionFormation i _ _ => i
  | .productDefinitionContext i _ _ _ => i
  | .productDefinition i _ _ _ => i
  | .productDefinitionShape i _ _ _ => i
  | .cartesianPoint i _ _ => i
  | .direction i _ _ => i
  | .vector i _ _ _ => i
  | .axis2Placement3D i _ _ _ _ => i
  | .line i _ _ _ => i
  | .vertexPoint i _ _ => i
  | .edgeCurve i _ _ _ _ _ _ => i
  | .orientedEdge i _ _ _ => i
  | .edgeLoop i _ _ => i
  | .faceOuterBound i _ _ _ => i
  | .plane i _ _ => i
  | .advancedFace i _ _ _ _ => i
  | .closedShell i _ _ => i
  | .manifoldSolidBrep i _ _ => i
  | .advancedBrepShapeRepresentation i _ _ _ => i
  | .shapeDefinitionRepresentation i _ _ => i

/-- The coordinates of a CARTESIAN_POINT entity, none for other kinds. -/
def cpCoords : Entity → Option Vec
  | .cartesianPoint _ _ c => some c
  | _ => none

/-- The stored ratios representative of a DIRECTION entity. -/
def dirVec : Entity → Option Vec
  | .direction _ _ d => some d
  | _ => none

/-- The (source endpoint key, id) of an EDGE_CURVE entity. -/
def ecKeyId : Entity → Option (EdgeKey × ℕ)
  | .edgeCurve i _ _ _ _ _ k => some (k, i)
  | _ => none

/-- The id of an ADVANCED_FACE entity. -/
def afId : Entity → Option ℕ
  | .advancedFace i _ _ _ _ => some i
  | _ => none

/-- The face list of a CLOSED_SHELL entity. -/
def shellFaces : Entity → Option (List ℕ)
  | .closedShell _ _ faces => some faces
  | _ => none

/-- The name slot of a PRODUCT entity. -/
def prodName : Entity → Option String
  | .product _ n _ _ => some n
  | _ => none

def isCartesianPoint : Entity → Bool
  | .cartesianPoint _ _ _ => true
  | _ => false

def isDirection : Entity → Bool
  | .direction _ _ _ => true
  | _ => false

def isVertexPoint : Entity → Bool
  | .vertexPoint _ _ _ => true
  | _ => false

def isEdgeCurve : Entity → Bool
  | .edgeCurve _ _ _ _ _ _ _ => true
  | _ => false

def isAdvancedFace : Entity → Bool
  | .advancedFace _ _ _ _ _ => true
  | _ => false

def isClosedShell : Entity → Bool
  | .closedShell _ _ _ => true
  | _ => false

def isProduct : Entity → Bool
  | .product _ _ _ _ => true
  | _ => false

/-- MeshConverter (converter.go lines 11-19): the ordered entity list, the id
counter, and the three caches.  The maps are insertion-ordered association
lists (Go map contents; iteration order is a parameter, see ScanOrder). -/
structure ConvState where
  entities : List Entity
  idCounter : ℕ
  pointCache : List (Vec × ℕ)
  edgeCache : List (EdgeKey × ℕ)
  normalCache : List (Vec × ℕ)
deriving DecidableEq, Repr

/-- The order in which `range` over the Go point-cache map presents its
entries.  Go does not specify it; the converter takes it as a parameter. -/
def ScanOrder : Type := List (Vec × ℕ) → List (Vec × ℕ)

/-- Insertion order: one fixed admissible scan order. -/
def scanInsertion : ScanOrder := fun l => l

/-- Reversed insertion order: another admissible scan order. -/
def scanReverse : ScanOrder := fun l => l.reverse

/-- addEntity: assign the next id, append, bump the counter. -/
def addEntity (s : ConvState) (f : ℕ → Entity) : ℕ × ConvState :=
  (s.idCounter,
   { s with entities := s.entities ++ [f s.idCounter], idCounter := s.idCounter + 1 })

/-- The scan of getOrCreatePoint over the (already ordered) cache entries:
return the id of the first cached point that compares equal to p under the
tolerance.  Modelled from the spec: v3.Vec.Equals is comparison of the two
coordinate triples under the Euclidean tolerance (spec 3.3/4.2: two points
within Euclidean distance 1e-6 share an id), expressed on squared
distances. -/
def lookupTol : List (Vec × ℕ) → Vec → Option ℕ
  | [], _ => none
  | e :: rest, p => if sqDist e.1 p ≤ tolQ ^ 2 then some e.2 else lookupTol rest p

/-- Exact-key lookup in an association list (a Go map indexing). -/
def lookupExact {α : Type} [DecidableEq α] : List (α × ℕ) → α → Option ℕ
  | [], _ => none
  | e :: rest, k => if e.1 = k then some e.2 else lookupExact rest k

/-- getOrCreatePoint (converter.go lines 54-71): scan the cache under the
ambient iteration order; on a miss create the CARTESIAN_POINT and cache it
under the exact coordinates. -/
def getOrCreatePoint (σ : ScanOrder) (s : ConvState) (p : Vec) : ℕ × ConvState :=
  match lookupTol (σ s.pointCache) p with
  | some i => (i, s)
  | none =>
    let r := addEntity s (fun i => .cartesianPoint i "" p)
    (r.1, { r.2 with pointCache := r.2.pointCache ++ [(p, r.1)] })

/-- getOrCreateDirection (converter.go lines 74-90): normalize, then look the
normalized vector up exactly; on a miss create the DIRECTION and cache it.
The normalization d.Normalize() is represented by the canonical rational
representative canonDir d of the same ray (see canonDir). -/
def getOrCreateDirection (s : ConvState) (d : Vec) : ℕ × ConvState :=
  let dn := canonDir d
  match lookupExact s.normalCache dn with
  | some i => (i, s)
  | none =>
    let r := addEntity s (fun i => .direction i "" dn)
    (r.1, { r.2 with normalCache := r.2.normalCache ++ [(dn, r.1)] })

/-- createAxis2Placement (converter.go lines 93-105). -/
def createAxis2Placement (σ : ScanOrder) (s : ConvState) (origin zAxis xAxis : Vec) :
    ℕ × ConvState :=
  let rl := getOrCreatePoint σ s origin
  let ra := getOrCreateDirection rl.2 zAxis
  let rr := getOrCreateDirection ra.2 xAxis
  addEntity rr.2 (fun i => .axis2Placement3D i "" rl.1 ra.1 rr.1)

/-- createVertexPoint (converter.go lines 108-115): always a fresh
VERTEX_POINT over the deduplicated point. -/
def createVertexPoint (σ : ScanOrder) (s : ConvState) (p : Vec) : ℕ × ConvState :=
  let rp := getOrCreatePoint σ s p
  addEntity rp.2 (fun i => .vertexPoint i "" rp.1)

/-- createEdgeCurve (converter.go lines 118-162): on a cache hit return the
cached id unchanged; on a miss build two vertices, the line geometry (the
vector's magnitude |v2-v1| is stored by its square) and the EDGE_CURVE, then
cache the canonical key.  The direction argument v2-v1 is passed raw: the
source normalizes it, and getOrCreateDirection normalizes again, which is
absorbed by canonDir. -/
def createEdgeCurve (σ : ScanOrder) (s : ConvState) (v1 v2 : Vec) : ℕ × ConvState :=
  let key := newEdgeKey v1 v2
  match lookupExact s.edgeCache key with
  | some i => (i, s)
  | none =>
    let r1 := createVertexPoint σ s v1
    let r2 := createVertexPoint σ r1.2 v2
    let rs := getOrCreatePoint σ r2.2 v1
    let rd := getOrCreateDirection rs.2 (v2 - v1)
    let rv := addEntity rd.2 (fun i => .vector i "" rd.1 (v2 - v1).sqLength)
    let rl := addEntity rv.2 (fun i => .line i "" rs.1 rv.1)
    let re := addEntity rl.2 (fun i => .edgeCurve i "" r1.1 r2.1 rl.1 true key)
    (re.1, { re.2 with edgeCache := re.2.edgeCache ++ [(key, re.1)] })

/-- createTriangleFace (converter.go lines 165-236).  The plane's z axis is
the triangle normal (v1-v0) x (v2-v0) and its x axis is v1-v0; the source
pre-normalizes both before handing them to the direction cache, which
canonDir absorbs. -/
def createTriangleFace (σ : ScanOrder) (s : ConvState) (t : Triangle) : ℕ × ConvState :=
  let re1 := createEdgeCurve σ s t.v0 t.v1
  let re2 := createEdgeCurve σ re1.2 t.v1 t.v2
  let re3 := createEdgeCurve σ re2.2 t.v2 t.v0
  let ro1 := addEntity re3.2 (fun i => .orientedEdge i "" re1.1 true)
  let ro2 := addEntity ro1.2 (fun i => .orientedEdge i "" re2.1 true)
  let ro3 := addEntity ro2.2 (fun i => .orientedEdge i "" re3.1 true)
  let rloop := addEntity ro3.2 (fun i => .edgeLoop i "" [ro1.1, ro2.1, ro3.1])
  let rb := addEntity rloop.2 (fun i => .faceOuterBound i "" rloop.1 true)
  let rax := createAxis2Placement σ rb.2 t.v0 ((t.v1 - t.v0).cross (t.v2 - t.v0)) (t.v1 - t.v0)
  let rpl := addEntity rax.2 (fun i => .plane i "" rax.1)
  addEntity rpl.2 (fun i => .advancedFace i "" [rb.1] rpl.1 true)

/-- The per-triangle loop of ConvertMesh (converter.go lines 330-338):
degenerate triangles are skipped, each surviving triangle's face id is
appended to the running face list. -/
def convertFaces (σ : ScanOrder) (s : ConvState) (acc : List ℕ) :
    List Triangle → ConvState × List ℕ
  | [] => (s, acc)
  | t :: ts =>
    if t.degenerate epsQ then convertFaces σ s acc ts
    else
      let r := createTriangleFace σ s t
      convertFaces σ r.2 (acc ++ [r.1]) ts

/-- The reset state of ConvertMesh (converter.go lines 243-247): empty
entity list, counter 1, empty caches. -/
def emptyState : ConvState := ⟨[], 1, [], [], []⟩

/-- The prelude of ConvertMesh (converter.go lines 249-325, after the reset
of lines 243-247): application context, the three units, the uncertainty,
the geometric representation context and the product hierarchy, in creation
order. -/
def preludeState (name : String) : ConvState :=
  let r1 := addEntity emptyState (fun i => .applicationContext i "sdfx STEP Writer")
  let r2 := addEntity r1.2 (fun i => .lengthUnit i)
  let r3 := addEntity r2.2 (fun i => .planeAngleUnit i)
  let r4 := addEntity r3.2 (fun i => .solidAngleUnit i)
  let r5 := addEntity r4.2 (fun i => .uncertaintyMeasureWithUnit i (1 / 1000000) r2.1
    "DISTANCE_ACCURACY_VALUE" "Maximum model space distance between geometric entities")
  let r6 := addEntity r5.2 (fun i => .geometricRepresentationContext i "" "3D" 3
    [r5.1] [r2.1, r3.1, r4.1])
  let r7 := addEntity r6.2 (fun i => .productContext i "" r1.1 "mechanical")
  let r8 := addEntity r7.2 (fun i => .product i name "Generated from sdfx" [r7.1])
  let r9 := addEntity r8.2 (fun i => .productDefinitionFormation i "" r8.1)
  let r10 := addEntity r9.2 (fun i => .productDefinitionContext i "" r1.1 "design")
  let r11 := addEntity r10.2 (fun i => .productDefinition i "" r9.1 r10.1)
  (addEntity r11.2 (fun i => .productDefinitionShape i "" "" r11.1)).2

/-- The id addEntity assigned to the prelude's GEOMETRIC_REPRESENTATION_CONTEXT
(the counter starts at 1 and the context is the sixth entity created). -/
def geomContextId : ℕ := 6

/-- The id addEntity assigned to the prelude's PRODUCT_DEFINITION_SHAPE (the
twelfth entity created). -/
def pdsId : ℕ := 12

/-- ConvertMesh (converter.go lines 239-390), parametric in the point-cache
scan order: reset, prelude, the per-triangle loop, then closed shell,
manifold solid BREP, the world placement and the representation entities.
Returns the entity list. -/
def convertMeshO (σ : ScanOrder) (mesh : List Triangle) (name : String) : List Entity :=
  let rf := convertFaces σ (preludeState name) [] mesh
  let rsh := addEntity rf.1 (fun i => .closedShell i "" rf.2)
  let rbrep := addEntity rsh.2 (fun i => .manifoldSolidBrep i "" rsh.1)
  let rloc := getOrCreatePoint σ rbrep.2 ⟨0, 0, 0⟩
  let raxis := getOrCreateDirection rloc.2 ⟨0, 0, 1⟩
  let rref := getOrCreateDirection raxis.2 ⟨1, 0, 0⟩
  let rpl := addEntity rref.2 (fun i => .axis2Placement3D i "" rloc.1 raxis.1 rref.1)
  let radv := addEntity rpl.2 (fun i => .advancedBrepShapeRepresentation i ""
    [rbrep.1, rpl.1] geomContextId)
  let rsd := addEntity radv.2 (fun i => .shapeDefinitionRepresentation i pdsId radv.1)
  rsd.2.entities

/-- ConvertMesh with the scan order fixed to insertion order. -/
def convertMesh (mesh : List Triangle) (name : String) : List Entity :=
  convertMeshO scanInsertion mesh name

/-- OptimizeMesh (converter.go lines 393-408): drop degenerate triangles. -/
def optimizeMesh (mesh : List Triangle) : List Triangle :=
  mesh.filter (fun t => !t.degenerate epsQ)

/-! Serialization (entities.go String methods, writer.go). -/

/-- Decimal digits of n left-padded with zeros to the given width. -/
def natPad (n width : ℕ) : String :=
  let s := toString n
  String.mk (List.replicate (width - s.length) '0') ++ s

/-- Floor of a nonnegative rational as a natural number. -/
def ratFloorNat (q : ℚ) : ℕ := (q.num / (q.den : ℤ)).toNat

/-- Go fmt %.6f: sign, integer part, six fractional digits.  Rounding of the
half-way case differs from Go's float formatting in the last digit only; every
value serialized by a theorem below is an exact multiple of 1e-6, where the
two agree. -/
def formatFloat (q : ℚ) : String :=
  let m := ratFloorNat (|q| * 1000000 + 1 / 2)
  (if q < 0 then "-" else "") ++ toString (m / 1000000) ++ "." ++ natPad (m % 1000000) 6

/-- Scale a positive rational below 1 up by powers of ten until it reaches 1,
returning the mantissa and the exponent (fuel-bounded). -/
def sciScaleUp : ℕ → ℚ → ℚ × ℕ
  | 0, q => (q, 0)
  | fuel + 1, q =>
    if q < 1 then
      let r := sciScaleUp fuel (q * 10)
      (r.1, r.2 + 1)
    else (q, 0)

/-- Scale a rational at least 10 down by powers of ten below 10, returning
the mantissa and the exponent (fuel-bounded). -/
def sciScaleDown : ℕ → ℚ → ℚ × ℕ
  | 0, q => (q, 0)
  | fuel + 1, q =>
    if 10 ≤ q then
      let r := sciScaleDown fuel (q / 10)
      (r.1, r.2 + 1)
    else (q, 0)

/-- Go fmt %.6E (used only for the uncertainty value 1e-6, which it renders
as 1.000000E-06). -/
def formatSci (q : ℚ) : String :=
  if q = 0 then "0.000000E+00"
  else
    (if q < 0 then "-" else "") ++
    (if |q| < 1 then
      let r := sciScaleUp 64 |q|
      formatFloat r.1 ++ "E-" ++ natPad r.2 2
    else
      let r := sciScaleDown 64 |q|
      formatFloat r.1 ++ "E+" ++ natPad r.2 2)

/-- Join strings with a separator (strings.Join). -/
def joinSep (sep : String) : List String → String
  | [] => ""
  | [a] => a
  | a :: rest => a ++ sep ++ joinSep sep rest

/-- formatRefs (entities.go): "#id,#id,...". -/
def formatRefs (refs : List ℕ) : String :=
  joinSep "," (refs.map (fun r => "#" ++ toString r))

/-- formatFloats (entities.go) applied to a coordinate triple. -/
def formatVec (v : Vec) : String :=
  joinSep "," [formatFloat v.x, formatFloat v.y, formatFloat v.z]

/-- formatBool (entities.go): .T. or .F. (formatLogical is identical). -/
def formatBool (b : Bool) : String := if b then ".T." else ".F."

/-- Exact square root of a perfect-square rational (the magnitude of a VECTOR
entity is stored squared; no theorem below serializes a VECTOR). -/
def ratSqrt (q : ℚ) : ℚ := (Nat.sqrt q.num.toNat : ℚ) / (Nat.sqrt q.den : ℚ)

/-- Entity.String() (entities.go): one AP214 instance per entity, multi-line
for the composite unit/context entities. -/
def entityString : Entity → String
  | .applicationContext i app =>
    "#" ++ toString i ++ "=APPLICATION_CONTEXT('" ++ app ++ "');"
  | .lengthUnit i =>
    "#" ++ toString i ++ "=(LENGTH_UNIT()\nNAMED_UNIT(*)\nSI_UNIT(.MILLI.,.METRE.));"
  | .planeAngleUnit i =>
    "#" ++ toString i ++ "=(NAMED_UNIT(*)\nPLANE_ANGLE_UNIT()\nSI_UNIT($,.RADIAN.));"
  | .solidAngleUnit i =>
    "#" ++ toString i ++ "=(NAMED_UNIT(*)\nSI_UNIT($,.STERADIAN.)\nSOLID_ANGLE_UNIT());"
  | .uncertaintyMeasureWithUnit i v u n d =>
    "#" ++ toString i ++ "=UNCERTAINTY_MEASURE_WITH_UNIT(LENGTH_MEASURE(" ++ formatSci v ++
      "),#" ++ toString u ++ ",'" ++ n ++ "','" ++ d ++ "');"
  | .geometricRepresentationContext i ci ct dim unc units =>
    "#" ++ toString i ++ "=(GEOMETRIC_REPRESENTATION_CONTEXT(" ++ toString dim ++
      ")\nGLOBAL_UNCERTAINTY_ASSIGNED_CONTEXT((" ++ formatRefs unc ++
      "))\nGLOBAL_UNIT_ASSIGNED_CONTEXT((" ++ formatRefs units ++
      "))\nREPRESENTATION_CONTEXT('" ++ ci ++ "','" ++ ct ++ "'));"
  | .productContext i n f d =>
    "#" ++ toString i ++ "=PRODUCT_CONTEXT('" ++ n ++ "',#" ++ toString f ++ ",'" ++ d ++ "');"
  | .product i n d f =>
    "#" ++ toString i ++ "=PRODUCT('','" ++ n ++ "','" ++ d ++ "',(" ++ formatRefs f ++ "));"
  | .productDefinitionFormation i d p =>
    "#" ++ toString i ++ "=PRODUCT_DEFINITION_FORMATION('','" ++ d ++ "',#" ++ toString p ++ ");"
  | .productDefinitionContext i n f l =>
    "#" ++ toString i ++ "=PRODUCT_DEFINITION_CONTEXT('" ++ n ++ "',#" ++ toString f ++
      ",'" ++ l ++ "');"
  | .productDefinition i d f r =>
    "#" ++ toString i ++ "=PRODUCT_DEFINITION('','" ++ d ++ "',#" ++ toString f ++
      ",#" ++ toString r ++ ");"
  | .productDefinitionShape i n d def_ =>
    "#" ++ toString i ++ "=PRODUCT_DEFINITION_SHAPE('" ++ n ++ "','" ++ d ++
      "',#" ++ toString def_ ++ ");"
  | .cartesianPoint i n c =>
    "#" ++ toString i ++ "=CARTESIAN_POINT('" ++ n ++ "',(" ++ formatVec c ++ "));"
  | .direction i n d =>
    "#" ++ toString i ++ "=DIRECTION('" ++ n ++ "',(" ++ formatVec d ++ "));"
  | .vector i n o msq =>
    "#" ++ toString i ++ "=VECTOR('" ++ n ++ "',#" ++ toString o ++ "," ++
      formatFloat (ratSqrt msq) ++ ");"
  | .axis2Placement3D i n l a r =>
    "#" ++ toString i ++ "=AXIS2_PLACEMENT_3D('" ++ n ++ "',#" ++ toString l ++
      ",#" ++ toString a ++ ",#" ++ toString r ++ ");"
  | .line i n p d =>
    "#" ++ toString i ++ "=LINE('" ++ n ++ "',#" ++ toString p ++ ",#" ++ toString d ++ ");"
  | .vertexPoint i n g =>
    "#" ++ toString i ++ "=VERTEX_POINT('" ++ n ++ "',#" ++ toString g ++ ");"
  | .edgeCurve i n s e g ss _ =>
    "#" ++ toString i ++ "=EDGE_CURVE('" ++ n ++ "',#" ++ toString s ++ ",#" ++ toString e ++
      ",#" ++ toString g ++ "," ++ formatBool ss ++ ");"
  | .orientedEdge i n e o =>
    "#" ++ toString i ++ "=ORIENTED_EDGE('" ++ n ++ "',*,*,#" ++ toString e ++ "," ++
      formatBool o ++ ");"
  | .edgeLoop i n l =>
    "#" ++ toString i ++ "=EDGE_LOOP('" ++ n ++ "',(" ++ formatRefs l ++ "));"
  | .faceOuterBound i n b o =>
    "#" ++ toString i ++ "=FACE_OUTER_BOUND('" ++ n ++ "',#" ++ toString b ++ "," ++
      formatBool o ++ ");"
  | .plane i n p =>
    "#" ++ toString i ++ "=PLANE('" ++ n ++ "',#" ++ toString p ++ ");"
  | .advancedFace i n b g ss =>
    "#" ++ toString i ++ "=ADVANCED_FACE('" ++ n ++ "',(" ++ formatRefs b ++ "),#" ++
      toString g ++ "," ++ formatBool ss ++ ");"
  | .closedShell i n f =>
    "#" ++ toString i ++ "=CLOSED_SHELL('" ++ n ++ "',(" ++ formatRefs f ++ "));"
  | .manifoldSolidBrep i n o =>
    "#" ++ toString i ++ "=MANIFOLD_SOLID_BREP('" ++ n ++ "',#" ++ toString o ++ ");"
  | .advancedBrepShapeRepresentation i n items c =>
    "#" ++ toString i ++ "=ADVANCED_BREP_SHAPE_REPRESENTATION('" ++ n ++ "',(" ++
      formatRefs items ++ "),#" ++ toString c ++ ");"
  | .shapeDefinitionRepresentation i d u =>
    "#" ++ toString i ++ "=SHAPE_DEFINITION_REPRESENTATION(#" ++ toString d ++
      ",#" ++ toString u ++ ");"

/-- Right-nested concatenation of a list of strings (the writer emits these
pieces sequentially; right nesting keeps kernel reduction shallow). -/
def concatAll : List String → String
  | [] => ""
  | s :: rest => s ++ concatAll rest

/-- strings.Split on newline over the character list. -/
def splitNlAux : List Char → List Char → List String
  | [], acc => [String.mk acc.reverse]
  | c :: rest, acc =>
    if c = '\n' then String.mk acc.reverse :: splitNlAux rest []
    else splitNlAux rest (c :: acc)

/-- The text writeData (writer.go lines 82-115) emits for one entity: a
multi-line instance is split on newlines and each line written with a
newline (both branches of the source's inner conditional write line+newline),
a single-line instance is written with a newline. -/
def writeEntityLines (e : Entity) : String :=
  let str := entityString e
  if str.data.contains '\n' then
    concatAll ((splitNlAux str.data []).map (fun l => l ++ "\n"))
  else str ++ "\n"

/-- writeData: the DATA section. -/
def writeData (entities : List Entity) : String :=
  "DATA;\n" ++ (concatAll (entities.map writeEntityLines) ++ "ENDSEC;\n")

/-- Writer metadata (writer.go lines 16-23): output file name, the timestamp
taken at header time (a parameter here), author and organization. -/
structure WriterInfo where
  fileName : String
  timestamp : String
  authorName : String
  orgName : String
deriving DecidableEq, Repr

/-- NewWriter (writer.go lines 26-40): author defaults. -/
def newWriterInfo (fileName timestamp : String) : WriterInfo :=
  ⟨fileName, timestamp, "sdfx User", "sdfx Organization"⟩

/-- SetAuthor (writer.go lines 43-46). -/
def setAuthor (w : WriterInfo) (name org : String) : WriterInfo :=
  { w with authorName := name, orgName := org }

/-- The author/organization resolution of SaveSTEPWithOptions (render STEP
glue): SetAuthor is invoked only when either option is nonempty, replacing an
empty slot by "Unknown"; otherwise NewWriter's defaults stand. -/
def saveOptsWriter (fileName timestamp author org : String) : WriterInfo :=
  let w := newWriterInfo fileName timestamp
  if author ≠ "" ∨ org ≠ "" then
    setAuthor w (if author = "" then "Unknown" else author)
      (if org = "" then "Unknown" else org)
  else w

/-- The product-name default of the render STEP glue: empty becomes
"sdfx_model". -/
def defaultProductName (productName : String) : String :=
  if productName = "" then "sdfx_model" else productName

/-- writeHeader (writer.go lines 58-79): the six header lines in order. -/
def writeHeaderLines (w : WriterInfo) : List String :=
  ["ISO-10303-21;",
   "HEADER;",
   "FILE_DESCRIPTION(('STEP AP214'),'1');",
   "FILE_NAME('" ++ w.fileName ++ "','" ++ w.timestamp ++ "',('" ++ w.authorName ++
     "'),('" ++ w.orgName ++ "'),'sdfx STEP Writer','sdfx','');",
   "FILE_SCHEMA(('AUTOMOTIVE_DESIGN'));",
   "ENDSEC;"]

/-- writeHeader's emitted text: each line with a newline. -/
def writeHeader (w : WriterInfo) : String :=
  concatAll ((writeHeaderLines w).map (fun l => l ++ "\n"))

/-- writeFooter (writer.go lines 118-123). -/
def writeFooter : String := "END-ISO-10303-21;\n"

/-- WriteMesh (writer.go lines 126-156): optimize, convert, then emit header,
data section and footer.  I/O errors are outside the model: this is the text
reaching the file when no write fails. -/
def writeMeshStr (w : WriterInfo) (mesh : List Triangle) (name : String) : String :=
  writeHeader w ++ (writeData (convertMesh (optimizeMesh mesh) name) ++ writeFooter)

/-! The exact-real semantics of the stored direction representative: the
serialized DirectionRatios of the source are Normalize(d) = d / |d|, which
for the stored representative v = canonDir d equals v scaled by its Euclidean
norm. -/

/-- The Euclidean norm of a rational vector, as a real. -/
noncomputable def realNorm (v : Vec) : ℝ := Real.sqrt ((v.sqLength : ℚ) : ℝ)

/-- The real direction-ratio triple a DIRECTION entity stands for: the
Euclidean normalization of its stored representative. -/
noncomputable def dirRatios (v : Vec) : ℝ × ℝ × ℝ :=
  ((v.x : ℝ) / realNorm v, (v.y : ℝ) / realNorm v, (v.z : ℝ) / realNorm v)

/-- The Euclidean norm of a real triple. -/
noncomputable def euclidNorm3 (t : ℝ × ℝ × ℝ) : ℝ :=
  Real.sqrt (t.1 ^ 2 + t.2.1 ^ 2 + t.2.2 ^ 2)

/-! Invariants and claim-support definitions. -/

/-- The entity kinds createTriangleFace and its helpers can append. -/
def faceKind : Entity → Bool
  | .cartesianPoint _ _ _ => true
  | .direction _ _ _ => true
  | .axis2Placement3D _ _ _ _ _ => true
  | .vector _ _ _ _ => true
  | .line _ _ _ _ => true
  | .vertexPoint _ _ _ => true
  | .edgeCurve _ _ _ _ _ _ _ => true
  | .orientedEdge _ _ _ _ => true
  | .edgeLoop _ _ _ => true
  | .faceOuterBound _ _ _ _ => true
  | .plane _ _ _ => true
  | .advancedFace _ _ _ _ _ => true
  | _ => false

/-- The vertexGeometry reference of a VERTEX_POINT entity. -/
def vpGeom : Entity → Option ℕ
  | .vertexPoint _ _ g => some g
  | _ => none

/-- Two entities carrying point coordinates lie strictly farther apart than
the dedup tolerance (vacuous unless both are CARTESIAN_POINTs). -/
def Rpt (e₁ e₂ : Entity) : Prop :=
  ∀ p q, cpCoords e₁ = some p → cpCoords e₂ = some q → tolQ ^ 2 < sqDist p q

/-- The converter-state invariant: ids are 1..n in creation order and the
counter is next; the point cache lists exactly the CARTESIAN_POINT
coordinates in creation order; distinct point entities are separated beyond
the tolerance; the edge cache lists exactly the EDGE_CURVE (key, id) pairs in
creation order with no key twice; every DIRECTION entity stores a nonzero
representative. -/
def Good (s : ConvState) : Prop :=
  s.entities.map Entity.eid = List.range' 1 s.entities.length ∧
  s.idCounter = s.entities.length + 1 ∧
  s.entities.filterMap cpCoords = s.pointCache.map Prod.fst ∧
  s.entities.Pairwise Rpt ∧
  s.entities.filterMap ecKeyId = s.edgeCache ∧
  (s.edgeCache.map Prod.fst).Nodup ∧
  (∀ e ∈ s.entities, ∀ v, dirVec e = some v → v ≠ 0)

/-- The non-entities part of a converter state: the id counter and the three
caches.  Every cache decision of the converter reads only this part. -/
def core (s : ConvState) : ℕ × List (Vec × ℕ) × List (EdgeKey × ℕ) × List (Vec × ℕ) :=
  (s.idCounter, s.pointCache, s.edgeCache, s.normalCache)

/-- The point-cache keys are among S, none repeated. -/
def PtsIn (S : List Vec) (s : ConvState) : Prop :=
  (s.pointCache.map Prod.fst).Nodup ∧ ∀ q ∈ s.pointCache.map Prod.fst, q ∈ S

/-- Every two distinct coordinates of S lie strictly farther apart than twice
the dedup tolerance. -/
def SepSet (S : List Vec) : Prop :=
  ∀ p ∈ S, ∀ q ∈ S, p ≠ q → (2 * tolQ) ^ 2 < sqDist p q

/-- Every coordinate the converter ever queries the point cache with: the
mesh's vertices and the world origin. -/
def meshPoints (mesh : List Triangle) : List Vec :=
  (mesh.flatMap fun t => [t.v0, t.v1, t.v2]) ++ [⟨0, 0, 0⟩]

/-- The first triangle of the spec's two-triangle scenario. -/
def demoTriA : Triangle := ⟨⟨0, 0, 0⟩, ⟨1, 0, 0⟩, ⟨0, 1, 0⟩⟩

/-- The second triangle of the spec's two-triangle scenario, sharing the edge
from (1,0,0) to (0,1,0) with the first. -/
def demoTriB : Triangle := ⟨⟨1, 0, 0⟩, ⟨0, 1, 0⟩, ⟨1, 1, 0⟩⟩

/-- A triangle whose first vertex lies 1.8e-6 from the origin: beyond the
1e-6 dedup tolerance of demoTriA's origin vertex, so both points end up
cached. -/
def demoTriC : Triangle := ⟨⟨18 / 10000000, 0, 0⟩, ⟨1, 0, 0⟩, ⟨0, 1, 0⟩⟩

/-- A triangle whose first vertex lies 0.9e-6 from the origin and 0.9e-6 from
demoTriC's first vertex: within tolerance of both cached points at once, so
the id it reuses depends on the cache scan order. -/
def demoTriD : Triangle := ⟨⟨9 / 10000000, 0, 0⟩, ⟨1, 0, 0⟩, ⟨0, 1, 0⟩⟩

/-- A degenerate triangle: three collinear vertices. -/
def degenTri : Triangle := ⟨⟨0, 0, 0⟩, ⟨1, 0, 0⟩, ⟨2, 0, 0⟩⟩

/-- The DATA section and footer WriteMesh emits for a mesh with no
non-degenerate triangle under the default product name: the prelude, an
empty CLOSED_SHELL, the solid and the representation entities. -/
def emptyShellData : String :=
  "DATA;\n#1=APPLICATION_CONTEXT('sdfx STEP Writer');\n#2=(LENGTH_UNIT()\nNAMED_UNIT(*)\nSI_UNIT(.MILLI.,.METRE.));\n#3=(NAMED_UNIT(*)\nPLANE_ANGLE_UNIT()\nSI_UNIT($,.RADIAN.));\n#4=(NAMED_UNIT(*)\nSI_UNIT($,.STERADIAN.)\nSOLID_ANGLE_UNIT());\n#5=UNCERTAINTY_MEASURE_WITH_UNIT(LENGTH_MEASURE(1.000000E-06),#2,'DISTANCE_ACCURACY_VALUE','Maximum model space distance between geometric entities');\n#6=(GEOMETRIC_REPRESENTATION_CONTEXT(3)\nGLOBAL_UNCERTAINTY_ASSIGNED_CONTEXT((#5))\nGLOBAL_UNIT_ASSIGNED_CONTEXT((#2,#3,#4))\nREPRESENTATION_CONTEXT('','3D'));\n#7=PRODUCT_CONTEXT('',#1,'mechanical');\n#8=PRODUCT('','sdfx_model','Generated from sdfx',(#7));\n#9=PRODUCT_DEFINITION_FORMATION('','',#8);\n#10=PRODUCT_DEFINITION_CONTEXT('',#1,'design');\n#11=PRODUCT_DEFINITION('','',#9,#10);\n#12=PRODUCT_DEFINITION_SHAPE('','',#11);\n#13=CLOSED_SHELL('',());\n#14=MANIFOLD_SOLID_BREP('',#13);\n#15=CARTESIAN_POINT('',(0.000000,0.000000,0.000000));\n#16=DIRECTION('',(0.000000,0.000000,1.000000));\n#17=DIRECTION('',(1.000000,0.000000,0.000000));\n#18=AXIS2_PLACEMENT_3D('',#15,#16,#17);\n#19=ADVANCED_BREP_SHAPE_REPRESENTATION('',(#14,#18),#6);\n#20=SHAPE_DEFINITION_REPRESENTATION(#12,#19);\nENDSEC;\nEND-ISO-10303-21;\n"

/-- The entity suffix a face-phase operation appends: all of face kinds, with
the given VERTEX_POINT and EDGE_CURVE counts and ADVANCED_FACE id list. -/
def DeltaFace (base out : List Entity) (nVP nEC : ℕ) (afl : List ℕ) : Prop :=
  ∃ Δ, out = base ++ Δ ∧ (∀ e ∈ Δ, faceKind e = true) ∧
    Δ.countP isVertexPoint = nVP ∧ Δ.countP isEdgeCurve = nEC ∧ Δ.filterMap afId = afl

/-- Structural character-list comparison (kernel-evaluation friendly; used
only to establish concrete string equalities). -/
def listEqChar : List Char → List Char → Bool
  | [], [] => true
  | a :: as, b :: bs => if a = b then listEqChar as bs else false
  | _, _ => false

end Step

namespace Step

/-! Generic helper lemmas. -/

theorem listEqChar_eq {a b : List Char} (h : listEqChar a b = true) : a = b := by
  induction a generalizing b with
  | nil =>
    cases b with
    | nil => rfl
    | cons y ys => simp [listEqChar] at h
  | cons x xs ih =>
    cases b with
    | nil => simp [listEqChar] at h
    | cons y ys =>
      rw [listEqChar] at h
      by_cases hxy : x = y
      · rw [if_pos hxy] at h
        rw [hxy, ih h]
      · rw [if_neg hxy] at h
        exact absurd h (by simp)

theorem stringEq_of_data {a b : String} (h : a.data = b.data) : a = b := by
  cases a
  cases b
  exact congrArg String.mk (by simpa using h)

theorem stringEq_of_listEqChar {a b : String} (h : listEqChar a.data b.data = true) :
    a = b :=
  stringEq_of_data (listEqChar_eq h)

theorem range1_concat (n : ℕ) : List.range' 1 (n + 1) = List.range' 1 n ++ [n + 1] := by
  rw [List.range'_concat]
  simp [Nat.add_comm]

theorem keysNodup_eq_of_mem {α : Type} (l : List (α × ℕ)) (k : α) (a b : ℕ)
    (hnd : (l.map Prod.fst).Nodup) (ha : (k, a) ∈ l) (hb : (k, b) ∈ l) : a = b := by
  induction l with
  | nil => cases ha
  | cons e rest ih =>
    rw [List.map_cons, List.nodup_cons] at hnd
    obtain ⟨h1, h2⟩ := hnd
    rcases List.mem_cons.mp ha with ha1 | ha1 <;> rcases List.mem_cons.mp hb with hb1 | hb1
    · exact (Prod.ext_iff.mp (ha1.trans hb1.symm)).2
    · rw [← ha1] at h1
      exact absurd (List.mem_map.mpr ⟨(k, b), hb1, rfl⟩) h1
    · rw [← hb1] at h1
      exact absurd (List.mem_map.mpr ⟨(k, a), ha1, rfl⟩) h1
    · exact ih h2 ha1 hb1

theorem lookupTol_eq_none_iff (l : List (Vec × ℕ)) (p : Vec) :
    lookupTol l p = none ↔ ∀ e ∈ l, ¬(sqDist e.1 p ≤ tolQ ^ 2) := by
  induction l with
  | nil => simp [lookupTol]
  | cons e rest ih =>
    rw [lookupTol]
    split
    · simp only [List.mem_cons]
      constructor
      · intro h
        cases h
      · intro h
        exact absurd (by assumption) (h e (Or.inl rfl))
    · simp only [List.mem_cons]
      rw [ih]
      constructor
      · intro h f hf
        rcases hf with hf | hf
        · rw [hf]; assumption
        · exact h f hf
      · intro h f hf
        exact h f (Or.inr hf)

theorem lookupExact_eq_none_iff {α : Type} [DecidableEq α] (l : List (α × ℕ)) (k : α) :
    lookupExact l k = none ↔ ∀ e ∈ l, e.1 ≠ k := by
  induction l with
  | nil => simp [lookupExact]
  | cons e rest ih =>
    rw [lookupExact]
    split
    · simp only [List.mem_cons]
      constructor
      · intro h
        cases h
      · intro h
        exact absurd (by assumption) (h e (Or.inl rfl))
    · simp only [List.mem_cons]
      rw [ih]
      constructor
      · intro h f hf
        rcases hf with hf | hf
        · rw [hf]; assumption
        · exact h f hf
      · intro h f hf
        exact h f (Or.inr hf)

/-- Members of a filterMap have nodup images when the underlying projection
composed with the list is nodup: here, if the (key, id) pairs carried by a
filterMap have nodup keys, any two positions carry different keys. -/
theorem pairwise_of_filterMap_keys_nodup {β γ : Type} (f : Entity → Option β) (g : β → γ)
    (l : List Entity) (hnd : ((l.filterMap f).map g).Nodup) :
    l.Pairwise (fun e₁ e₂ => ∀ b₁ b₂, f e₁ = some b₁ → f e₂ = some b₂ → g b₁ ≠ g b₂) := by
  induction l with
  | nil => exact List.Pairwise.nil
  | cons e rest ih =>
    rw [List.filterMap_cons] at hnd
    constructor
    · intro e' he' b₁ b₂ hb₁ hb₂ hgeq
      rw [hb₁] at hnd
      rw [List.map_cons, List.nodup_cons] at hnd
      exact hnd.1 (hgeq ▸ List.mem_map.mpr ⟨b₂, List.mem_filterMap.mpr ⟨e', he', hb₂⟩, rfl⟩)
    · apply ih
      cases hf : f e with
      | none => rwa [hf] at hnd
      | some b =>
        rw [hf, List.map_cons, List.nodup_cons] at hnd
        exact hnd.2

/-- A filterMap of ids is nodup whenever the full id list is: every id the
projection keeps is the entity's id. -/
theorem filterMap_ids_nodup (f : Entity → Option ℕ)
    (hf : ∀ e i, f e = some i → e.eid = i)
    (l : List Entity) (hnd : (l.map Entity.eid).Nodup) : (l.filterMap f).Nodup := by
  induction l with
  | nil => exact List.nodup_nil
  | cons e rest ih =>
    rw [List.map_cons, List.nodup_cons] at hnd
    rw [List.filterMap_cons]
    cases hfe : f e with
    | none => exact ih hnd.2
    | some i =>
      rw [List.nodup_cons]
      refine ⟨fun hmem => ?_, ih hnd.2⟩
      obtain ⟨e', he', hfe'⟩ := List.mem_filterMap.mp hmem
      exact hnd.1 (List.mem_map.mpr ⟨e', he', by rw [hf e' i hfe', ← hf e i hfe]⟩)

/-! Vector and numeric lemmas. -/

theorem vecSub_def (a b : Vec) : a - b = ⟨a.x - b.x, a.y - b.y, a.z - b.z⟩ := rfl

theorem vecZero_def : (0 : Vec) = ⟨0, 0, 0⟩ := rfl

theorem vecEq_iff (a b : Vec) : a = b ↔ a.x = b.x ∧ a.y = b.y ∧ a.z = b.z := by
  cases a
  cases b
  simp [Vec.mk.injEq]

theorem sqDist_comm (a b : Vec) : sqDist a b = sqDist b a := by
  simp only [sqDist, vecSub_def, Vec.sqLength, Vec.dot]
  ring

theorem sqDist_self (p : Vec) : sqDist p p = 0 := by
  simp only [sqDist, vecSub_def, Vec.sqLength, Vec.dot]
  ring

theorem sqLength_nonneg (v : Vec) : 0 ≤ v.sqLength := by
  simp only [Vec.sqLength, Vec.dot]
  nlinarith [mul_self_nonneg v.x, mul_self_nonneg v.y, mul_self_nonneg v.z]

theorem sqLength_pos (v : Vec) (h : v ≠ 0) : 0 < v.sqLength := by
  rcases (sqLength_nonneg v).lt_or_eq with h' | h'
  · exact h'
  · exfalso
    apply h
    have h0 : v.x * v.x + v.y * v.y + v.z * v.z = 0 := by
      simpa [Vec.sqLength, Vec.dot] using h'.symm
    rw [vecEq_iff, vecZero_def]
    dsimp only
    refine ⟨?_, ?_, ?_⟩ <;> nlinarith [mul_self_nonneg v.x, mul_self_nonneg v.y, mul_self_nonneg v.z]

theorem l1norm_pos (v : Vec) (h : v ≠ 0) : 0 < v.l1norm := by
  have hnn : 0 ≤ v.l1norm := by
    simp only [Vec.l1norm]
    positivity
  rcases hnn.lt_or_eq with h' | h'
  · exact h'
  · exfalso
    apply h
    have h0 : |v.x| + |v.y| + |v.z| = 0 := h'.symm
    have hx := abs_nonneg v.x
    have hy := abs_nonneg v.y
    have hz := abs_nonneg v.z
    rw [vecEq_iff, vecZero_def]
    dsimp only
    refine ⟨abs_eq_zero.mp ?_, abs_eq_zero.mp ?_, abs_eq_zero.mp ?_⟩ <;> linarith

theorem canonDir_ne_zero (d : Vec) (h : d ≠ 0) : canonDir d ≠ 0 := by
  rw [canonDir, if_neg h]
  intro hc
  apply h
  have hl := l1norm_pos d h
  have hc' := (vecEq_iff _ _).mp hc
  simp only [Vec.smulQ, vecZero_def] at hc'
  rw [vecEq_iff, vecZero_def]
  dsimp only
  have hne : (1 : ℚ) / d.l1norm ≠ 0 := one_div_ne_zero hl.ne'
  refine ⟨?_, ?_, ?_⟩
  · rcases mul_eq_zero.mp hc'.1 with h1 | h1
    · exact absurd h1 hne
    · exact h1
  · rcases mul_eq_zero.mp hc'.2.1 with h1 | h1
    · exact absurd h1 hne
    · exact h1
  · rcases mul_eq_zero.mp hc'.2.2 with h1 | h1
    · exact absurd h1 hne
    · exact h1

theorem realNorm_sq (v : Vec) : realNorm v ^ 2 = ((v.sqLength : ℚ) : ℝ) := by
  rw [realNorm, Real.sq_sqrt]
  exact_mod_cast sqLength_nonneg v

theorem realNorm_pos (v : Vec) (h : v ≠ 0) : 0 < realNorm v := by
  rw [realNorm]
  apply Real.sqrt_pos.mpr
  exact_mod_cast sqLength_pos v h

theorem euclidNorm3_dirRatios (v : Vec) (h : v ≠ 0) : euclidNorm3 (dirRatios v) = 1 := by
  have hrn := realNorm_pos v h
  have hS : ((v.sqLength : ℚ) : ℝ) = (v.x : ℝ) ^ 2 + (v.y : ℝ) ^ 2 + (v.z : ℝ) ^ 2 := by
    push_cast [Vec.sqLength, Vec.dot]
    ring
  rw [euclidNorm3, dirRatios]
  have hSne : (v.x : ℝ) ^ 2 + (v.y : ℝ) ^ 2 + (v.z : ℝ) ^ 2 ≠ 0 := by
    rw [← hS]
    exact_mod_cast (sqLength_pos v h).ne'
  have : ((v.x : ℝ) / realNorm v) ^ 2 + ((v.y : ℝ) / realNorm v) ^ 2 +
      ((v.z : ℝ) / realNorm v) ^ 2 = 1 := by
    rw [div_pow, div_pow, div_pow, div_add_div_same, div_add_div_same, realNorm_sq, hS,
      div_self hSne]
  rw [this, Real.sqrt_one]

theorem dirRatios_smulQ (c : ℚ) (hc : 0 < c) (v : Vec) :
    dirRatios (Vec.smulQ c v) = dirRatios v := by
  have hnorm : realNorm (Vec.smulQ c v) = (c : ℝ) * realNorm v := by
    rw [realNorm, realNorm]
    have : ((Vec.smulQ c v).sqLength : ℝ) = (c : ℝ) ^ 2 * ((v.sqLength : ℚ) : ℝ) := by
      push_cast [Vec.smulQ, Vec.sqLength, Vec.dot]
      ring
    rw [this, Real.sqrt_mul (by positivity), Real.sqrt_sq (by positivity : (0:ℝ) ≤ (c:ℝ))]
  have hcR : (0 : ℝ) < (c : ℝ) := by exact_mod_cast hc
  have comp : ∀ a : ℚ, ((c * a : ℚ) : ℝ) / ((c : ℝ) * realNorm v) = (a : ℝ) / realNorm v := by
    intro a
    push_cast
    rcases eq_or_ne (realNorm v) 0 with h0 | h0
    · rw [h0, mul_zero, div_zero, div_zero]
    · rw [mul_div_mul_left _ _ hcR.ne']
  have hx : (Vec.smulQ c v).x = c * v.x := rfl
  have hy : (Vec.smulQ c v).y = c * v.y := rfl
  have hz : (Vec.smulQ c v).z = c * v.z := rfl
  simp only [dirRatios, hnorm, hx, hy, hz]
  rw [Prod.mk.injEq, Prod.mk.injEq]
  exact ⟨comp v.x, comp v.y, comp v.z⟩

theorem dirRatios_canonDir (d : Vec) (h : d ≠ 0) : dirRatios (canonDir d) = dirRatios d := by
  rw [canonDir, if_neg h]
  exact dirRatios_smulQ _ (one_div_pos.mpr (l1norm_pos d h)) d

/-- The canonical representative is a faithful cache key: two nonzero vectors
share it exactly when their real Euclidean normalizations (the key
d.Normalize() of the source) coincide. -/
theorem canonDir_eq_iff (d e : Vec) (hd : d ≠ 0) (he : e ≠ 0) :
    canonDir d = canonDir e ↔ dirRatios d = dirRatios e := by
  constructor
  · intro hce
    rw [← dirRatios_canonDir d hd, ← dirRatios_canonDir e he, hce]
  · intro hr
    have hSd := realNorm_pos d hd
    have hSe := realNorm_pos e he
    have hx : (d.x : ℝ) / realNorm d = (e.x : ℝ) / realNorm e := congrArg Prod.fst hr
    have hy : (d.y : ℝ) / realNorm d = (e.y : ℝ) / realNorm e :=
      congrArg Prod.fst (congrArg Prod.snd hr)
    have hz : (d.z : ℝ) / realNorm d = (e.z : ℝ) / realNorm e :=
      congrArg Prod.snd (congrArg Prod.snd hr)
    set c : ℝ := realNorm e / realNorm d with hc
    have hcpos : 0 < c := div_pos hSe hSd
    have hex : (e.x : ℝ) = c * (d.x : ℝ) := by
      field_simp [hc] at hx ⊢
      linarith [hx]
    have hey : (e.y : ℝ) = c * (d.y : ℝ) := by
      field_simp [hc] at hy ⊢
      linarith [hy]
    have hez : (e.z : ℝ) = c * (d.z : ℝ) := by
      field_simp [hc] at hz ⊢
      linarith [hz]
    have hl1 : ((e.l1norm : ℚ) : ℝ) = c * ((d.l1norm : ℚ) : ℝ) := by
      push_cast [Vec.l1norm]
      rw [hex, hey, hez, abs_mul, abs_mul, abs_mul, abs_of_pos hcpos]
      ring
    have hld := l1norm_pos d hd
    have hle := l1norm_pos e he
    have hldR : (0 : ℝ) < ((d.l1norm : ℚ) : ℝ) := by exact_mod_cast hld
    rw [canonDir, if_neg hd, canonDir, if_neg he, vecEq_iff]
    simp only [Vec.smulQ]
    have comp : ∀ (a b : ℚ), (b : ℝ) = c * (a : ℝ) → 1 / d.l1norm * a = 1 / e.l1norm * b := by
      intro a b hab
      have : ((1 / d.l1norm * a : ℚ) : ℝ) = ((1 / e.l1norm * b : ℚ) : ℝ) := by
        push_cast
        rw [hab, hl1]
        field_simp
        ring
      exact_mod_cast this
    exact ⟨comp d.x e.x hex, comp d.y e.y hey, comp d.z e.z hez⟩

/-! Lexicographic order and edge-key lemmas. -/

theorem lexLt_iff (a b : Vec) : lexLt a b = true ↔
    (a.x < b.x ∨ (a.x = b.x ∧ a.y < b.y) ∨ (a.x = b.x ∧ a.y = b.y ∧ a.z < b.z)) := by
  rw [lexLt]
  simp only [Bool.or_eq_true, Bool.and_eq_true, decide_eq_true_eq]
  tauto

theorem lexLt_true_asymm {a b : Vec} (h : lexLt a b = true) : lexLt b a = false := by
  rw [Bool.eq_false_iff]
  intro h2
  rw [lexLt_iff] at h h2
  rcases h with hx | ⟨hx, hy⟩ | ⟨hx, hy, hz⟩ <;>
    rcases h2 with hx2 | ⟨hx2, hy2⟩ | ⟨hx2, hy2, hz2⟩ <;> linarith

theorem lexLt_both_false {a b : Vec} (h1 : lexLt a b = false) (h2 : lexLt b a = false) :
    a = b := by
  rw [Bool.eq_false_iff] at h1 h2
  simp only [ne_eq, lexLt_iff] at h1 h2
  push_neg at h1 h2
  obtain ⟨ha1, hb1, hc1⟩ := h1
  obtain ⟨ha2, hb2, hc2⟩ := h2
  have hxeq : a.x = b.x := le_antisymm ha2 ha1
  have hyeq : a.y = b.y := le_antisymm (hb2 hxeq.symm) (hb1 hxeq)
  have hzeq : a.z = b.z := le_antisymm (hc2 hxeq.symm hyeq.symm) (hc1 hxeq hyeq)
  rw [vecEq_iff]
  exact ⟨hxeq, hyeq, hzeq⟩

theorem newEdgeKey_comm (v w : Vec) : newEdgeKey v w = newEdgeKey w v := by
  by_cases h : lexLt v w = true
  · rw [newEdgeKey, if_pos h, newEdgeKey, if_neg (by rw [lexLt_true_asymm h]; simp)]
  · by_cases h2 : lexLt w v = true
    · rw [newEdgeKey, if_neg h, newEdgeKey, if_pos h2]
    · rw [lexLt_both_false (Bool.eq_false_iff.mpr h) (Bool.eq_false_iff.mpr h2)]

theorem newEdgeKey_sorted (v w : Vec) :
    lexLt (newEdgeKey v w).v2 (newEdgeKey v w).v1 = false := by
  by_cases h : lexLt v w = true
  · rw [newEdgeKey, if_pos h]
    exact lexLt_true_asymm h
  · rw [newEdgeKey, if_neg h]
    exact Bool.eq_false_iff.mpr h

/-! Entity kind facts. -/

theorem Rpt_left_none {e₁ e₂ : Entity} (h : cpCoords e₁ = none) : Rpt e₁ e₂ := by
  intro p q hp hq
  rw [h] at hp
  cases hp

theorem Rpt_right_none {e₁ e₂ : Entity} (h : cpCoords e₂ = none) : Rpt e₁ e₂ := by
  intro p q hp hq
  rw [h] at hq
  cases hq

theorem cp_facts {e : Entity} (h : isCartesianPoint e = true) :
    faceKind e = true ∧ isVertexPoint e = false ∧ isEdgeCurve e = false ∧
    afId e = none ∧ ecKeyId e = none ∧ dirVec e = none ∧ shellFaces e = none ∧
    prodName e = none := by
  cases e <;> simp_all [isCartesianPoint, faceKind, isVertexPoint, isEdgeCurve, afId,
    ecKeyId, dirVec, shellFaces, prodName]

theorem dir_facts {e : Entity} (h : isDirection e = true) :
    faceKind e = true ∧ isVertexPoint e = false ∧ isEdgeCurve e = false ∧
    afId e = none ∧ ecKeyId e = none ∧ cpCoords e = none ∧ shellFaces e = none ∧
    prodName e = none := by
  cases e <;> simp_all [isDirection, faceKind, isVertexPoint, isEdgeCurve, afId,
    ecKeyId, cpCoords, shellFaces, prodName]

theorem faceKind_facts {e : Entity} (h : faceKind e = true) :
    shellFaces e = none ∧ prodName e = none := by
  cases e <;> simp_all [faceKind, shellFaces, prodName]

theorem afId_eid {e : Entity} {i : ℕ} (h : afId e = some i) : e.eid = i := by
  cases e <;> simp_all [afId, Entity.eid]

/-! Per-operation invariant preservation. -/

theorem addEntity_spec (s : ConvState) (f : ℕ → Entity) (hg : Good s)
    (hid : ∀ n, (f n).eid = n)
    (hcp : ∀ n, cpCoords (f n) = none)
    (hec : ∀ n, ecKeyId (f n) = none)
    (hdv : ∀ n, dirVec (f n) = none) :
    Good (addEntity s f).2 ∧
    (addEntity s f).1 = s.idCounter ∧
    (addEntity s f).2.entities = s.entities ++ [f s.idCounter] ∧
    (addEntity s f).2.pointCache = s.pointCache ∧
    (addEntity s f).2.edgeCache = s.edgeCache ∧
    (addEntity s f).2.normalCache = s.normalCache := by
  obtain ⟨g1, g2, g3, g4, g5, g6, g7⟩ := hg
  refine ⟨⟨?_, ?_, ?_, ?_, ?_, ?_, ?_⟩, rfl, rfl, rfl, rfl, rfl⟩
  · show (s.entities ++ [f s.idCounter]).map Entity.eid =
      List.range' 1 (s.entities ++ [f s.idCounter]).length
    rw [List.map_append, List.length_append, g1]
    simp only [List.map_cons, List.map_nil, List.length_cons, List.length_nil, hid, g2]
    exact (range1_concat s.entities.length).symm
  · show s.idCounter + 1 = (s.entities ++ [f s.idCounter]).length + 1
    rw [List.length_append, g2]
    simp
  · show (s.entities ++ [f s.idCounter]).filterMap cpCoords = s.pointCache.map Prod.fst
    rw [List.filterMap_append, g3]
    simp [List.filterMap_cons, hcp]
  · show (s.entities ++ [f s.idCounter]).Pairwise Rpt
    rw [List.pairwise_append]
    exact ⟨g4, List.pairwise_singleton _ _,
      fun a _ b hb => by
        rw [List.mem_singleton] at hb
        rw [hb]
        exact Rpt_right_none (hcp s.idCounter)⟩
  · show (s.entities ++ [f s.idCounter]).filterMap ecKeyId = s.edgeCache
    rw [List.filterMap_append, g5]
    simp [List.filterMap_cons, hec]
  · exact g6
  · show ∀ e ∈ s.entities ++ [f s.idCounter], ∀ v, dirVec e = some v → v ≠ 0
    intro e he v hv
    rcases List.mem_append.mp he with he1 | he1
    · exact g7 e he1 v hv
    · rw [List.mem_singleton] at he1
      rw [he1, hdv] at hv
      cases hv

theorem getOrCreatePoint_spec (σ : ScanOrder) (hσ : ∀ l, List.Perm (σ l) l)
    (s : ConvState) (p : Vec) (hg : Good s) :
    Good (getOrCreatePoint σ s p).2 ∧
    (getOrCreatePoint σ s p).2.edgeCache = s.edgeCache ∧
    (getOrCreatePoint σ s p).2.normalCache = s.normalCache ∧
    ∃ Δ, (getOrCreatePoint σ s p).2.entities = s.entities ++ Δ ∧
      ∀ e ∈ Δ, isCartesianPoint e = true := by
  obtain ⟨g1, g2, g3, g4, g5, g6, g7⟩ := hg
  cases hl : lookupTol (σ s.pointCache) p with
  | some i =>
    simp only [getOrCreatePoint, hl]
    exact ⟨⟨g1, g2, g3, g4, g5, g6, g7⟩, by trivial, by trivial, [], by simp, by simp⟩
  | none =>
    have hmiss : ∀ e ∈ s.pointCache, ¬(sqDist e.1 p ≤ tolQ ^ 2) := by
      intro e he
      exact (lookupTol_eq_none_iff _ p).mp hl e ((hσ s.pointCache).mem_iff.mpr he)
    simp only [getOrCreatePoint, hl]
    refine ⟨⟨?_, ?_, ?_, ?_, ?_, ?_, ?_⟩, rfl, rfl,
      [Entity.cartesianPoint s.idCounter "" p], rfl, ?_⟩
    · show (s.entities ++ [Entity.cartesianPoint s.idCounter "" p]).map Entity.eid =
        List.range' 1 (s.entities ++ [Entity.cartesianPoint s.idCounter "" p]).length
      rw [List.map_append, List.length_append, g1]
      simp only [List.map_cons, List.map_nil, List.length_cons, List.length_nil, Entity.eid, g2]
      exact (range1_concat s.entities.length).symm
    · show s.idCounter + 1 =
        (s.entities ++ [Entity.cartesianPoint s.idCounter "" p]).length + 1
      rw [List.length_append, g2]
      simp
    · show (s.entities ++ [Entity.cartesianPoint s.idCounter "" p]).filterMap cpCoords =
        (s.pointCache ++ [(p, s.idCounter)]).map Prod.fst
      rw [List.filterMap_append, List.map_append, g3]
      simp [List.filterMap_cons, cpCoords]
    · show (s.entities ++ [Entity.cartesianPoint s.idCounter "" p]).Pairwise Rpt
      rw [List.pairwise_append]
      refine ⟨g4, List.pairwise_singleton _ _, fun a ha b hb => ?_⟩
      rw [List.mem_singleton] at hb
      rw [hb]
      intro p' q hp' hq
      have hq' : q = p := by
        simpa [cpCoords] using hq.symm
      have hp'mem : p' ∈ s.pointCache.map Prod.fst := by
        rw [← g3]
        exact List.mem_filterMap.mpr ⟨a, ha, hp'⟩
      obtain ⟨e, he, hfst⟩ := List.mem_map.mp hp'mem
      have := hmiss e he
      rw [hfst] at this
      rw [hq']
      exact lt_of_not_le this
    · show (s.entities ++ [Entity.cartesianPoint s.idCounter "" p]).filterMap ecKeyId =
        s.edgeCache
      rw [List.filterMap_append, g5]
      simp [List.filterMap_cons, ecKeyId]
    · exact g6
    · show ∀ e ∈ s.entities ++ [Entity.cartesianPoint s.idCounter "" p],
        ∀ v, dirVec e = some v → v ≠ 0
      intro e he v hv
      rcases List.mem_append.mp he with he1 | he1
      · exact g7 e he1 v hv
      · rw [List.mem_singleton] at he1
        rw [he1] at hv
        cases hv
    · intro e he
      rw [List.mem_singleton] at he
      rw [he]
      rfl

theorem getOrCreateDirection_spec (s : ConvState) (d : Vec) (hg : Good s) (hd : d ≠ 0) :
    Good (getOrCreateDirection s d).2 ∧
    (getOrCreateDirection s d).2.pointCache = s.pointCache ∧
    (getOrCreateDirection s d).2.edgeCache = s.edgeCache ∧
    ∃ Δ, (getOrCreateDirection s d).2.entities = s.entities ++ Δ ∧
      ∀ e ∈ Δ, isDirection e = true := by
  obtain ⟨g1, g2, g3, g4, g5, g6, g7⟩ := hg
  cases hl : lookupExact s.normalCache (canonDir d) with
  | some i =>
    simp only [getOrCreateDirection, hl]
    exact ⟨⟨g1, g2, g3, g4, g5, g6, g7⟩, by trivial, by trivial, [], by simp, by simp⟩
  | none =>
    simp only [getOrCreateDirection, hl]
    refine ⟨⟨?_, ?_, ?_, ?_, ?_, ?_, ?_⟩, rfl, rfl,
      [Entity.direction s.idCounter "" (canonDir d)], rfl, ?_⟩
    · show (s.entities ++ [Entity.direction s.idCounter "" (canonDir d)]).map Entity.eid =
        List.range' 1 (s.entities ++ [Entity.direction s.idCounter "" (canonDir d)]).length
      rw [List.map_append, List.length_append, g1]
      simp only [List.map_cons, List.map_nil, List.length_cons, List.length_nil, Entity.eid, g2]
      exact (range1_concat s.entities.length).symm
    · show s.idCounter + 1 =
        (s.entities ++ [Entity.direction s.idCounter "" (canonDir d)]).length + 1
      rw [List.length_append, g2]
      simp
    · show (s.entities ++ [Entity.direction s.idCounter "" (canonDir d)]).filterMap cpCoords =
        s.pointCache.map Prod.fst
      rw [List.filterMap_append, g3]
      simp [List.filterMap_cons, cpCoords]
    · show (s.entities ++ [Entity.direction s.idCounter "" (canonDir d)]).Pairwise Rpt
      rw [List.pairwise_append]
      refine ⟨g4, List.pairwise_singleton _ _, fun a _ b hb => ?_⟩
      rw [List.mem_singleton] at hb
      rw [hb]
      exact Rpt_right_none rfl
    · show (s.entities ++ [Entity.direction s.idCounter "" (canonDir d)]).filterMap ecKeyId =
        s.edgeCache
      rw [List.filterMap_append, g5]
      simp [List.filterMap_cons, ecKeyId]
    · exact g6
    · show ∀ e ∈ s.entities ++ [Entity.direction s.idCounter "" (canonDir d)],
        ∀ v, dirVec e = some v → v ≠ 0
      intro e he v hv
      rcases List.mem_append.mp he with he1 | he1
      · exact g7 e he1 v hv
      · rw [List.mem_singleton] at he1
        rw [he1] at hv
        have hv' : canonDir d = v := by
          simpa [dirVec] using hv
        rw [← hv']
        exact canonDir_ne_zero d hd
    · intro e he
      rw [List.mem_singleton] at he
      rw [he]
      rfl

theorem countP_one_of {p : Entity → Bool} {e : Entity} (h : p e = true) :
    List.countP p [e] = 1 := by
  simp [List.countP_cons, h]

theorem countP_zero_of {p : Entity → Bool} {l : List Entity}
    (h : ∀ e ∈ l, p e = false) : l.countP p = 0 := by
  apply List.countP_eq_zero.mpr
  intro a ha
  simp [h a ha]

theorem filterMap_none_of {β : Type} (f : Entity → Option β) (l : List Entity)
    (h : ∀ a ∈ l, f a = none) : l.filterMap f = [] := by
  induction l with
  | nil => rfl
  | cons a rest ih =>
    rw [List.filterMap_cons, h a (List.mem_cons_self a rest)]
    exact ih (fun b hb => h b (List.mem_cons_of_mem a hb))

theorem createVertexPoint_spec (σ : ScanOrder) (hσ : ∀ l, List.Perm (σ l) l)
    (s : ConvState) (p : Vec) (hg : Good s) :
    Good (createVertexPoint σ s p).2 ∧
    (createVertexPoint σ s p).2.edgeCache = s.edgeCache ∧
    (createVertexPoint σ s p).2.normalCache = s.normalCache ∧
    ∃ Δ, (createVertexPoint σ s p).2.entities = s.entities ++ Δ ∧
      (∀ e ∈ Δ, faceKind e = true) ∧
      Δ.countP isVertexPoint = 1 ∧
      Δ.countP isEdgeCurve = 0 ∧
      Δ.filterMap afId = [] := by
  obtain ⟨hgood1, hec1, hnc1, Δ1, hΔ1, hcp1⟩ := getOrCreatePoint_spec σ hσ s p hg
  obtain ⟨hgood2, hret2, hent2, hpc2, hec2, hnc2⟩ :=
    addEntity_spec (getOrCreatePoint σ s p).2
      (fun i => Entity.vertexPoint i "" (getOrCreatePoint σ s p).1) hgood1
      (fun n => rfl) (fun n => rfl) (fun n => rfl) (fun n => rfl)
  simp only [createVertexPoint]
  refine ⟨hgood2, by rw [hec2, hec1], by rw [hnc2, hnc1],
    Δ1 ++ [Entity.vertexPoint (getOrCreatePoint σ s p).2.idCounter ""
      (getOrCreatePoint σ s p).1], ?_, ?_, ?_, ?_, ?_⟩
  · rw [hent2, hΔ1, List.append_assoc]
  · intro e he
    rcases List.mem_append.mp he with he1 | he1
    · exact (cp_facts (hcp1 e he1)).1
    · rw [List.mem_singleton] at he1
      rw [he1]
      rfl
  · rw [List.countP_append, countP_zero_of (fun e he => (cp_facts (hcp1 e he)).2.1)]
    simp [List.countP_cons, isVertexPoint]
  · rw [List.countP_append, countP_zero_of (fun e he => (cp_facts (hcp1 e he)).2.2.1)]
    simp [List.countP_cons, isEdgeCurve]
  · rw [List.filterMap_append,
      filterMap_none_of _ _ (fun e he => (cp_facts (hcp1 e he)).2.2.2.1)]
    simp [List.filterMap_cons, afId]

theorem createAxis2Placement_spec (σ : ScanOrder) (hσ : ∀ l, List.Perm (σ l) l)
    (s : ConvState) (origin zAxis xAxis : Vec) (hg : Good s)
    (hz : zAxis ≠ 0) (hx : xAxis ≠ 0) :
    Good (createAxis2Placement σ s origin zAxis xAxis).2 ∧
    (createAxis2Placement σ s origin zAxis xAxis).2.edgeCache = s.edgeCache ∧
    ∃ Δ, (createAxis2Placement σ s origin zAxis xAxis).2.entities = s.entities ++ Δ ∧
      (∀ e ∈ Δ, faceKind e = true) ∧
      Δ.countP isVertexPoint = 0 ∧
      Δ.countP isEdgeCurve = 0 ∧
      Δ.filterMap afId = [] := by
  obtain ⟨hgood1, hec1, hnc1, Δ1, hΔ1, hcp1⟩ := getOrCreatePoint_spec σ hσ s origin hg
  obtain ⟨hgood2, hpc2, hec2, Δ2, hΔ2, hdir2⟩ :=
    getOrCreateDirection_spec (getOrCreatePoint σ s origin).2 zAxis hgood1 hz
  obtain ⟨hgood3, hpc3, hec3, Δ3, hΔ3, hdir3⟩ :=
    getOrCreateDirection_spec (getOrCreateDirection (getOrCreatePoint σ s origin).2 zAxis).2
      xAxis hgood2 hx
  obtain ⟨hgood4, hret4, hent4, hpc4, hec4, hnc4⟩ :=
    addEntity_spec _
      (fun i => Entity.axis2Placement3D i "" (getOrCreatePoint σ s origin).1
        (getOrCreateDirection (getOrCreatePoint σ s origin).2 zAxis).1
        (getOrCreateDirection
          (getOrCreateDirection (getOrCreatePoint σ s origin).2 zAxis).2 xAxis).1) hgood3
      (fun n => rfl) (fun n => rfl) (fun n => rfl) (fun n => rfl)
  simp only [createAxis2Placement]
  have hkinds : ∀ e ∈ Δ1 ++ Δ2 ++ Δ3,
      isCartesianPoint e = true ∨ isDirection e = true := by
    intro e he
    rcases List.mem_append.mp he with he1 | he1
    · rcases List.mem_append.mp he1 with he2 | he2
      · exact Or.inl (hcp1 e he2)
      · exact Or.inr (hdir2 e he2)
    · exact Or.inr (hdir3 e he1)
  refine ⟨hgood4, by rw [hec4, hec3, hec2, hec1],
    Δ1 ++ Δ2 ++ Δ3 ++ [Entity.axis2Placement3D
      (getOrCreateDirection
        (getOrCreateDirection (getOrCreatePoint σ s origin).2 zAxis).2 xAxis).2.idCounter
      "" (getOrCreatePoint σ s origin).1
      (getOrCreateDirection (getOrCreatePoint σ s origin).2 zAxis).1
      (getOrCreateDirection
        (getOrCreateDirection (getOrCreatePoint σ s origin).2 zAxis).2 xAxis).1],
    ?_, ?_, ?_, ?_, ?_⟩
  · rw [hent4, hΔ3, hΔ2, hΔ1]
    simp [List.append_assoc]
  · intro e he
    rcases List.mem_append.mp he with he1 | he1
    · rcases hkinds e he1 with hk | hk
      · exact (cp_facts hk).1
      · exact (dir_facts hk).1
    · rw [List.mem_singleton] at he1
      rw [he1]
      rfl
  · rw [List.countP_append, List.countP_append, List.countP_append]
    rw [countP_zero_of (fun e he => by
        rcases hkinds e (by simpa [List.mem_append, or_assoc] using Or.inl (Or.inl he)) with hk | hk
        · exact (cp_facts hk).2.1
        · exact (dir_facts hk).2.1),
      countP_zero_of (fun e he => by
        rcases hkinds e (by simp [List.mem_append, he]) with hk | hk
        · exact (cp_facts hk).2.1
        · exact (dir_facts hk).2.1),
      countP_zero_of (fun e he => by
        rcases hkinds e (by simp [List.mem_append, he]) with hk | hk
        · exact (cp_facts hk).2.1
        · exact (dir_facts hk).2.1)]
    simp [List.countP_cons, isVertexPoint]
  · rw [List.countP_append, List.countP_append, List.countP_append]
    rw [countP_zero_of (fun e he => by
        rcases hkinds e (by simpa [List.mem_append, or_assoc] using Or.inl (Or.inl he)) with hk | hk
        · exact (cp_facts hk).2.2.1
        · exact (dir_facts hk).2.2.1),
      countP_zero_of (fun e he => by
        rcases hkinds e (by simp [List.mem_append, he]) with hk | hk
        · exact (cp_facts hk).2.2.1
        · exact (dir_facts hk).2.2.1),
      countP_zero_of (fun e he => by
        rcases hkinds e (by simp [List.mem_append, he]) with hk | hk
        · exact (cp_facts hk).2.2.1
        · exact (dir_facts hk).2.2.1)]
    simp [List.countP_cons, isEdgeCurve]
  · rw [List.filterMap_append, List.filterMap_append, List.filterMap_append]
    rw [filterMap_none_of _ _ (fun e he => by
        rcases hkinds e (by simpa [List.mem_append, or_assoc] using Or.inl (Or.inl he)) with hk | hk
        · exact (cp_facts hk).2.2.2.1
        · exact (dir_facts hk).2.2.2.1),
      filterMap_none_of _ _ (fun e he => by
        rcases hkinds e (by simp [List.mem_append, he]) with hk | hk
        · exact (cp_facts hk).2.2.2.1
        · exact (dir_facts hk).2.2.2.1),
      filterMap_none_of _ _ (fun e he => by
        rcases hkinds e (by simp [List.mem_append, he]) with hk | hk
        · exact (cp_facts hk).2.2.2.1
        · exact (dir_facts hk).2.2.2.1)]
    simp [List.filterMap_cons, afId]


/-! DeltaFace algebra. -/

theorem DeltaFace_trans {l1 l2 l3 : List Entity} {a b c d : ℕ} {f1 f2 : List ℕ}
    (h1 : DeltaFace l1 l2 a b f1) (h2 : DeltaFace l2 l3 c d f2) :
    DeltaFace l1 l3 (a + c) (b + d) (f1 ++ f2) := by
  obtain ⟨Δ1, he1, hk1, hv1, hc1, ha1⟩ := h1
  obtain ⟨Δ2, he2, hk2, hv2, hc2, ha2⟩ := h2
  refine ⟨Δ1 ++ Δ2, by rw [he2, he1, List.append_assoc], ?_, ?_, ?_, ?_⟩
  · intro e he
    rcases List.mem_append.mp he with h | h
    · exact hk1 e h
    · exact hk2 e h
  · rw [List.countP_append, hv1, hv2]
  · rw [List.countP_append, hc1, hc2]
  · rw [List.filterMap_append, ha1, ha2]

theorem DeltaFace_single (s : ConvState) (f : ℕ → Entity)
    (hface : ∀ n, faceKind (f n) = true) (hvp : ∀ n, isVertexPoint (f n) = false)
    (hec : ∀ n, isEdgeCurve (f n) = false) (haf : ∀ n, afId (f n) = none) :
    DeltaFace s.entities (addEntity s f).2.entities 0 0 [] := by
  refine ⟨[f s.idCounter], rfl, ?_, ?_, ?_, ?_⟩
  · intro e he
    rw [List.mem_singleton] at he
    rw [he]
    exact hface _
  · simp [List.countP_cons, hvp]
  · simp [List.countP_cons, hec]
  · simp [List.filterMap_cons, haf]

theorem DeltaFace_single_af (s : ConvState) (f : ℕ → Entity)
    (hface : ∀ n, faceKind (f n) = true) (hvp : ∀ n, isVertexPoint (f n) = false)
    (hec : ∀ n, isEdgeCurve (f n) = false) (haf : ∀ n, afId (f n) = some n) :
    DeltaFace s.entities (addEntity s f).2.entities 0 0 [(addEntity s f).1] := by
  refine ⟨[f s.idCounter], rfl, ?_, ?_, ?_, ?_⟩
  · intro e he
    rw [List.mem_singleton] at he
    rw [he]
    exact hface _
  · simp [List.countP_cons, hvp]
  · simp [List.countP_cons, hec]
  · simp [List.filterMap_cons, haf]
    rfl

theorem DeltaFace_countP {base out : List Entity} {nVP nEC : ℕ} {afl : List ℕ}
    (h : DeltaFace base out nVP nEC afl) :
    out.countP isVertexPoint = base.countP isVertexPoint + nVP ∧
    out.countP isEdgeCurve = base.countP isEdgeCurve + nEC ∧
    out.filterMap afId = base.filterMap afId ++ afl ∧
    out.filterMap shellFaces = base.filterMap shellFaces ∧
    out.filterMap prodName = base.filterMap prodName := by
  obtain ⟨Δ, hΔ, hface, hvp, hec, haf⟩ := h
  subst hΔ
  refine ⟨?_, ?_, ?_, ?_, ?_⟩
  · rw [List.countP_append, hvp]
  · rw [List.countP_append, hec]
  · rw [List.filterMap_append, haf]
  · rw [List.filterMap_append,
      filterMap_none_of _ _ (fun e he => (faceKind_facts (hface e he)).1), List.append_nil]
  · rw [List.filterMap_append,
      filterMap_none_of _ _ (fun e he => (faceKind_facts (hface e he)).2), List.append_nil]

/-! The edge-curve construction. -/

theorem addEdgeEntity_spec (s : ConvState) (a b g : ℕ) (key : EdgeKey) (hg : Good s)
    (hnew : ∀ e ∈ s.edgeCache, e.1 ≠ key) :
    Good { (addEntity s (fun i => Entity.edgeCurve i "" a b g true key)).2 with
      edgeCache :=
        (addEntity s (fun i => Entity.edgeCurve i "" a b g true key)).2.edgeCache ++
          [(key, (addEntity s (fun i => Entity.edgeCurve i "" a b g true key)).1)] } ∧
    ({ (addEntity s (fun i => Entity.edgeCurve i "" a b g true key)).2 with
      edgeCache :=
        (addEntity s (fun i => Entity.edgeCurve i "" a b g true key)).2.edgeCache ++
          [(key, (addEntity s (fun i => Entity.edgeCurve i "" a b g true key)).1)]
        } : ConvState).entities =
      s.entities ++ [Entity.edgeCurve s.idCounter "" a b g true key] := by
  obtain ⟨g1, g2, g3, g4, g5, g6, g7⟩ := hg
  refine ⟨⟨?_, ?_, ?_, ?_, ?_, ?_, ?_⟩, rfl⟩
  · show (s.entities ++ [Entity.edgeCurve s.idCounter "" a b g true key]).map Entity.eid =
      List.range' 1 (s.entities ++ [Entity.edgeCurve s.idCounter "" a b g true key]).length
    rw [List.map_append, List.length_append, g1]
    simp only [List.map_cons, List.map_nil, List.length_cons, List.length_nil, Entity.eid, g2]
    exact (range1_concat s.entities.length).symm
  · show s.idCounter + 1 =
      (s.entities ++ [Entity.edgeCurve s.idCounter "" a b g true key]).length + 1
    rw [List.length_append, g2]
    simp
  · show (s.entities ++ [Entity.edgeCurve s.idCounter "" a b g true key]).filterMap cpCoords =
      s.pointCache.map Prod.fst
    rw [List.filterMap_append, g3]
    simp [List.filterMap_cons, cpCoords]
  · show (s.entities ++ [Entity.edgeCurve s.idCounter "" a b g true key]).Pairwise Rpt
    rw [List.pairwise_append]
    refine ⟨g4, List.pairwise_singleton _ _, fun x _ y hy => ?_⟩
    rw [List.mem_singleton] at hy
    rw [hy]
    exact Rpt_right_none rfl
  · show (s.entities ++ [Entity.edgeCurve s.idCounter "" a b g true key]).filterMap ecKeyId =
      s.edgeCache ++ [(key, s.idCounter)]
    rw [List.filterMap_append, g5]
    simp [List.filterMap_cons, ecKeyId]
  · show ((s.edgeCache ++ [(key, s.idCounter)]).map Prod.fst).Nodup
    rw [List.map_append, List.nodup_append]
    refine ⟨g6, by simp, ?_⟩
    intro k hk1 hk2
    simp only [List.map_cons, List.map_nil, List.mem_singleton] at hk2
    obtain ⟨e, he, hfst⟩ := List.mem_map.mp hk1
    exact hnew e he (hfst.trans hk2)
  · show ∀ e ∈ s.entities ++ [Entity.edgeCurve s.idCounter "" a b g true key],
      ∀ v, dirVec e = some v → v ≠ 0
    intro e he v hv
    rcases List.mem_append.mp he with he1 | he1
    · exact g7 e he1 v hv
    · rw [List.mem_singleton] at he1
      rw [he1] at hv
      cases hv

theorem createEdgeCurve_spec (σ : ScanOrder) (hσ : ∀ l, List.Perm (σ l) l)
    (s : ConvState) (v1 v2 : Vec) (hg : Good s) (hd : v2 - v1 ≠ 0) :
    Good (createEdgeCurve σ s v1 v2).2 ∧
    ∃ k, DeltaFace s.entities (createEdgeCurve σ s v1 v2).2.entities (2 * k) k [] := by
  cases hl : lookupExact s.edgeCache (newEdgeKey v1 v2) with
  | some i =>
    simp only [createEdgeCurve, hl]
    exact ⟨hg, 0, [], by simp, by simp, by simp, by simp⟩
  | none =>
    simp only [createEdgeCurve, hl]
    obtain ⟨hgood1, hecc1, hncc1, hd1⟩ := createVertexPoint_spec σ hσ s v1 hg
    generalize hE1 : createVertexPoint σ s v1 = r1 at *
    obtain ⟨hgood2, hecc2, hncc2, hd2⟩ := createVertexPoint_spec σ hσ r1.2 v2 hgood1
    generalize hE2 : createVertexPoint σ r1.2 v2 = r2 at *
    obtain ⟨hgood3, hecc3, hncc3, Δ3, hΔ3, hcp3⟩ := getOrCreatePoint_spec σ hσ r2.2 v1 hgood2
    have hd3 : DeltaFace r2.2.entities (getOrCreatePoint σ r2.2 v1).2.entities 0 0 [] :=
      ⟨Δ3, hΔ3, fun e he => (cp_facts (hcp3 e he)).1,
        countP_zero_of (fun e he => (cp_facts (hcp3 e he)).2.1),
        countP_zero_of (fun e he => (cp_facts (hcp3 e he)).2.2.1),
        filterMap_none_of _ _ (fun e he => (cp_facts (hcp3 e he)).2.2.2.1)⟩
    generalize hE3 : getOrCreatePoint σ r2.2 v1 = r3 at *
    obtain ⟨hgood4, hpcc4, hecc4, Δ4, hΔ4, hdir4⟩ :=
      getOrCreateDirection_spec r3.2 (v2 - v1) hgood3 hd
    have hd4 : DeltaFace r3.2.entities (getOrCreateDirection r3.2 (v2 - v1)).2.entities
        0 0 [] :=
      ⟨Δ4, hΔ4, fun e he => (dir_facts (hdir4 e he)).1,
        countP_zero_of (fun e he => (dir_facts (hdir4 e he)).2.1),
        countP_zero_of (fun e he => (dir_facts (hdir4 e he)).2.2.1),
        filterMap_none_of _ _ (fun e he => (dir_facts (hdir4 e he)).2.2.2.1)⟩
    generalize hE4 : getOrCreateDirection r3.2 (v2 - v1) = r4 at *
    obtain ⟨hgood5, hret5, hent5, hpc5, hec5, hnc5⟩ :=
      addEntity_spec r4.2 (fun i => Entity.vector i "" r4.1 (v2 - v1).sqLength) hgood4
        (fun n => rfl) (fun n => rfl) (fun n => rfl) (fun n => rfl)
    have hd5 := DeltaFace_single r4.2 (fun i => Entity.vector i "" r4.1 (v2 - v1).sqLength)
      (fun n => rfl) (fun n => rfl) (fun n => rfl) (fun n => rfl)
    generalize hE5 : addEntity r4.2 (fun i => Entity.vector i "" r4.1 (v2 - v1).sqLength)
      = r5 at *
    obtain ⟨hgood6, hret6, hent6, hpc6, hec6, hnc6⟩ :=
      addEntity_spec r5.2 (fun i => Entity.line i "" r3.1 r5.1) hgood5
        (fun n => rfl) (fun n => rfl) (fun n => rfl) (fun n => rfl)
    have hd6 := DeltaFace_single r5.2 (fun i => Entity.line i "" r3.1 r5.1)
      (fun n => rfl) (fun n => rfl) (fun n => rfl) (fun n => rfl)
    generalize hE6 : addEntity r5.2 (fun i => Entity.line i "" r3.1 r5.1) = r6 at *
    have hecAll : r6.2.edgeCache = s.edgeCache := by
      rw [hec6, hec5, hecc4, hecc3, hecc2, hecc1]
    obtain ⟨hgoodF, hentF⟩ :=
      addEdgeEntity_spec r6.2 r1.1 r2.1 r6.1 (newEdgeKey v1 v2) hgood6
        (by
          rw [hecAll]
          exact fun e he => (lookupExact_eq_none_iff _ _).mp hl e he)
    have hdF : DeltaFace r6.2.entities
        ({ (addEntity r6.2 (fun i => Entity.edgeCurve i "" r1.1 r2.1 r6.1 true
            (newEdgeKey v1 v2))).2 with
          edgeCache := (addEntity r6.2 (fun i => Entity.edgeCurve i "" r1.1 r2.1 r6.1 true
            (newEdgeKey v1 v2))).2.edgeCache ++
            [(newEdgeKey v1 v2, (addEntity r6.2 (fun i => Entity.edgeCurve i "" r1.1 r2.1
              r6.1 true (newEdgeKey v1 v2))).1)] } : ConvState).entities 0 1 [] := by
      refine ⟨_, hentF, ?_, ?_, ?_, ?_⟩
      · intro e he
        rw [List.mem_singleton] at he
        rw [he]
        rfl
      · simp [List.countP_cons, isVertexPoint]
      · simp [List.countP_cons, isEdgeCurve]
      · simp [List.filterMap_cons, afId]
    have hchain := DeltaFace_trans (DeltaFace_trans (DeltaFace_trans (DeltaFace_trans
      (DeltaFace_trans (DeltaFace_trans hd1 hd2) hd3) hd4) hd5) hd6) hdF
    exact ⟨hgoodF, 1, by simpa using hchain⟩

theorem nondegen_facts {t : Triangle} (h : t.degenerate epsQ = false) :
    t.v1 - t.v0 ≠ 0 ∧ t.v2 - t.v1 ≠ 0 ∧ t.v0 - t.v2 ≠ 0 ∧
    (t.v1 - t.v0).cross (t.v2 - t.v0) ≠ 0 := by
  rw [Triangle.degenerate] at h
  simp only [Bool.or_eq_false_iff, decide_eq_false_iff_not, not_le] at h
  obtain ⟨⟨⟨h1, h2⟩, h3⟩, h4⟩ := h
  have h00 : (0 : Vec).sqLength = 0 := by
    rw [vecZero_def]
    norm_num [Vec.sqLength, Vec.dot]
  refine ⟨fun h0 => ?_, fun h0 => ?_, fun h0 => ?_, fun h0 => ?_⟩
  · rw [h0, h00] at h1
    norm_num [epsQ] at h1
  · rw [h0, h00] at h2
    norm_num [epsQ] at h2
  · rw [h0, h00] at h3
    norm_num [epsQ] at h3
  · rw [h0, h00] at h4
    norm_num [epsQ] at h4

theorem createTriangleFace_spec (σ : ScanOrder) (hσ : ∀ l, List.Perm (σ l) l)
    (s : ConvState) (t : Triangle) (hg : Good s) (hdeg : t.degenerate epsQ = false) :
    Good (createTriangleFace σ s t).2 ∧
    ∃ k, DeltaFace s.entities (createTriangleFace σ s t).2.entities (2 * k) k
      [(createTriangleFace σ s t).1] := by
  obtain ⟨he01, he12, he20, hcross⟩ := nondegen_facts hdeg
  simp only [createTriangleFace]
  obtain ⟨hgood1, k1, hd1⟩ := createEdgeCurve_spec σ hσ s t.v0 t.v1 hg he01
  generalize hE1 : createEdgeCurve σ s t.v0 t.v1 = r1 at *
  obtain ⟨hgood2, k2, hd2⟩ := createEdgeCurve_spec σ hσ r1.2 t.v1 t.v2 hgood1 he12
  generalize hE2 : createEdgeCurve σ r1.2 t.v1 t.v2 = r2 at *
  obtain ⟨hgood3, k3, hd3⟩ := createEdgeCurve_spec σ hσ r2.2 t.v2 t.v0 hgood2 he20
  generalize hE3 : createEdgeCurve σ r2.2 t.v2 t.v0 = r3 at *
  obtain ⟨hgood4, hret4, hent4, hpc4, hec4, hnc4⟩ :=
    addEntity_spec r3.2 (fun i => Entity.orientedEdge i "" r1.1 true) hgood3
      (fun n => rfl) (fun n => rfl) (fun n => rfl) (fun n => rfl)
  have hd4 := DeltaFace_single r3.2 (fun i => Entity.orientedEdge i "" r1.1 true)
    (fun n => rfl) (fun n => rfl) (fun n => rfl) (fun n => rfl)
  generalize hE4 : addEntity r3.2 (fun i => Entity.orientedEdge i "" r1.1 true) = r4 at *
  obtain ⟨hgood5, hret5, hent5, hpc5, hec5, hnc5⟩ :=
    addEntity_spec r4.2 (fun i => Entity.orientedEdge i "" r2.1 true) hgood4
      (fun n => rfl) (fun n => rfl) (fun n => rfl) (fun n => rfl)
  have hd5 := DeltaFace_single r4.2 (fun i => Entity.orientedEdge i "" r2.1 true)
    (fun n => rfl) (fun n => rfl) (fun n => rfl) (fun n => rfl)
  generalize hE5 : addEntity r4.2 (fun i => Entity.orientedEdge i "" r2.1 true) = r5 at *
  obtain ⟨hgood6, hret6, hent6, hpc6, hec6, hnc6⟩ :=
    addEntity_spec r5.2 (fun i => Entity.orientedEdge i "" r3.1 true) hgood5
      (fun n => rfl) (fun n => rfl) (fun n => rfl) (fun n => rfl)
  have hd6 := DeltaFace_single r5.2 (fun i => Entity.orientedEdge i "" r3.1 true)
    (fun n => rfl) (fun n => rfl) (fun n => rfl) (fun n => rfl)
  generalize hE6 : addEntity r5.2 (fun i => Entity.orientedEdge i "" r3.1 true) = r6 at *
  obtain ⟨hgood7, hret7, hent7, hpc7, hec7, hnc7⟩ :=
    addEntity_spec r6.2 (fun i => Entity.edgeLoop i "" [r4.1, r5.1, r6.1]) hgood6
      (fun n => rfl) (fun n => rfl) (fun n => rfl) (fun n => rfl)
  have hd7 := DeltaFace_single r6.2 (fun i => Entity.edgeLoop i "" [r4.1, r5.1, r6.1])
    (fun n => rfl) (fun n => rfl) (fun n => rfl) (fun n => rfl)
  generalize hE7 : addEntity r6.2 (fun i => Entity.edgeLoop i "" [r4.1, r5.1, r6.1])
    = r7 at *
  obtain ⟨hgood8, hret8, hent8, hpc8, hec8, hnc8⟩ :=
    addEntity_spec r7.2 (fun i => Entity.faceOuterBound i "" r7.1 true) hgood7
      (fun n => rfl) (fun n => rfl) (fun n => rfl) (fun n => rfl)
  have hd8 := DeltaFace_single r7.2 (fun i => Entity.faceOuterBound i "" r7.1 true)
    (fun n => rfl) (fun n => rfl) (fun n => rfl) (fun n => rfl)
  generalize hE8 : addEntity r7.2 (fun i => Entity.faceOuterBound i "" r7.1 true) = r8 at *
  obtain ⟨hgood9, hecc9, hd9⟩ :=
    createAxis2Placement_spec σ hσ r8.2 t.v0 ((t.v1 - t.v0).cross (t.v2 - t.v0))
      (t.v1 - t.v0) hgood8 hcross he01
  obtain ⟨Δ9, hΔ9, hk9, hvp9, hce9, haf9⟩ := hd9
  have hd9' : DeltaFace r8.2.entities
      (createAxis2Placement σ r8.2 t.v0 ((t.v1 - t.v0).cross (t.v2 - t.v0))
        (t.v1 - t.v0)).2.entities 0 0 [] :=
    ⟨Δ9, hΔ9, hk9, hvp9, hce9, haf9⟩
  generalize hE9 : createAxis2Placement σ r8.2 t.v0 ((t.v1 - t.v0).cross (t.v2 - t.v0))
    (t.v1 - t.v0) = r9 at *
  obtain ⟨hgood10, hret10, hent10, hpc10, hec10, hnc10⟩ :=
    addEntity_spec r9.2 (fun i => Entity.plane i "" r9.1) hgood9
      (fun n => rfl) (fun n => rfl) (fun n => rfl) (fun n => rfl)
  have hd10 := DeltaFace_single r9.2 (fun i => Entity.plane i "" r9.1)
    (fun n => rfl) (fun n => rfl) (fun n => rfl) (fun n => rfl)
  generalize hE10 : addEntity r9.2 (fun i => Entity.plane i "" r9.1) = r10 at *
  obtain ⟨hgood11, hret11, hent11, hpc11, hec11, hnc11⟩ :=
    addEntity_spec r10.2 (fun i => Entity.advancedFace i "" [r8.1] r10.1 true) hgood10
      (fun n => rfl) (fun n => rfl) (fun n => rfl) (fun n => rfl)
  have hd11 := DeltaFace_single_af r10.2
    (fun i => Entity.advancedFace i "" [r8.1] r10.1 true)
    (fun n => rfl) (fun n => rfl) (fun n => rfl) (fun n => rfl)
  refine ⟨hgood11, k1 + k2 + k3, ?_⟩
  have hchain := DeltaFace_trans (DeltaFace_trans (DeltaFace_trans (DeltaFace_trans
    (DeltaFace_trans (DeltaFace_trans (DeltaFace_trans (DeltaFace_trans (DeltaFace_trans
    (DeltaFace_trans hd1 hd2) hd3) hd4) hd5) hd6) hd7) hd8) hd9') hd10) hd11
  have harith : 2 * k1 + 2 * k2 + 2 * k3 + 0 + 0 + 0 + 0 + 0 + 0 + 0 + 0 =
      2 * (k1 + k2 + k3) := by ring
  simpa [harith] using hchain

/-! The per-triangle loop and the full conversion. -/

theorem convertFaces_spec (σ : ScanOrder) (hσ : ∀ l, List.Perm (σ l) l)
    (ts : List Triangle) :
    ∀ (s : ConvState) (acc : List ℕ), Good s →
    Good (convertFaces σ s acc ts).1 ∧
    ∃ k fl, DeltaFace s.entities (convertFaces σ s acc ts).1.entities (2 * k) k fl ∧
      (convertFaces σ s acc ts).2 = acc ++ fl ∧
      fl.length = (ts.filter (fun t => !t.degenerate epsQ)).length := by
  induction ts with
  | nil =>
    intro s acc hg
    simp only [convertFaces]
    exact ⟨hg, 0, [], ⟨[], by simp, by simp, by simp, by simp, by simp⟩, by simp, by simp⟩
  | cons t ts ih =>
    intro s acc hg
    cases hdeg : t.degenerate epsQ with
    | true =>
      rw [convertFaces, if_pos hdeg]
      obtain ⟨g, k, fl, hd, hacc, hlen⟩ := ih s acc hg
      refine ⟨g, k, fl, hd, hacc, ?_⟩
      rw [List.filter_cons]
      simp only [hdeg, Bool.not_true, Bool.false_eq_true, if_false]
      exact hlen
    | false =>
      rw [convertFaces, if_neg (by simp [hdeg])]
      obtain ⟨gctf, k0, hd0⟩ := createTriangleFace_spec σ hσ s t hg hdeg
      generalize hE : createTriangleFace σ s t = r at *
      obtain ⟨g, k, fl, hd, hacc, hlen⟩ := ih r.2 (acc ++ [r.1]) gctf
      refine ⟨g, k0 + k, [r.1] ++ fl, ?_, ?_, ?_⟩
      · have := DeltaFace_trans hd0 hd
        have harith : 2 * k0 + 2 * k = 2 * (k0 + k) := by ring
        rwa [harith] at this
      · rw [hacc, List.append_assoc]
      · rw [List.filter_cons]
        simp only [hdeg, Bool.not_false, if_true]
        simp [hlen]

theorem pairwise_rpt_none {l : List Entity} (h : ∀ e ∈ l, cpCoords e = none) :
    l.Pairwise Rpt := by
  induction l with
  | nil => exact List.Pairwise.nil
  | cons a rest ih =>
    refine List.Pairwise.cons (fun b _ => Rpt_left_none (h a (List.mem_cons_self a rest))) ?_
    exact ih (fun e he => h e (List.mem_cons_of_mem a he))

theorem prelude_good (name : String) : Good (preludeState name) := by
  refine ⟨rfl, rfl, rfl, ?_, rfl, List.nodup_nil, ?_⟩
  · apply pairwise_rpt_none
    intro e he
    fin_cases he <;> rfl
  · intro e he v hv
    fin_cases he <;> simp [dirVec] at hv

theorem convertMeshO_master (σ : ScanOrder) (hσ : ∀ l, List.Perm (σ l) l)
    (mesh : List Triangle) (name : String) :
    ∃ k fl,
      (convertMeshO σ mesh name).filterMap shellFaces = [fl] ∧
      (convertMeshO σ mesh name).filterMap afId = fl ∧
      fl.length = (mesh.filter (fun t => !t.degenerate epsQ)).length ∧
      (convertMeshO σ mesh name).filterMap prodName = [name] ∧
      (convertMeshO σ mesh name).countP isVertexPoint = 2 * k ∧
      (convertMeshO σ mesh name).countP isEdgeCurve = k ∧
      (convertMeshO σ mesh name).Pairwise Rpt ∧
      (∀ e ∈ convertMeshO σ mesh name, ∀ v, dirVec e = some v → v ≠ 0) ∧
      (convertMeshO σ mesh name).map Entity.eid =
        List.range' 1 (convertMeshO σ mesh name).length ∧
      (((convertMeshO σ mesh name).filterMap ecKeyId).map Prod.fst).Nodup := by
  simp only [convertMeshO]
  have hgp := prelude_good name
  obtain ⟨gf, k, fl, hdf, hacc, hlen⟩ :=
    convertFaces_spec σ hσ mesh (preludeState name) [] hgp
  generalize hEf : convertFaces σ (preludeState name) [] mesh = rf at *
  rw [List.nil_append] at hacc
  obtain ⟨g1, hret1, hent1, hpc1, hec1, hnc1⟩ :=
    addEntity_spec rf.1 (fun i => Entity.closedShell i "" rf.2) gf
      (fun n => rfl) (fun n => rfl) (fun n => rfl) (fun n => rfl)
  generalize hE1 : addEntity rf.1 (fun i => Entity.closedShell i "" rf.2) = r1 at *
  obtain ⟨g2, hret2, hent2, hpc2, hec2, hnc2⟩ :=
    addEntity_spec r1.2 (fun i => Entity.manifoldSolidBrep i "" r1.1) g1
      (fun n => rfl) (fun n => rfl) (fun n => rfl) (fun n => rfl)
  generalize hE2 : addEntity r1.2 (fun i => Entity.manifoldSolidBrep i "" r1.1) = r2 at *
  obtain ⟨g3, hecc3, hncc3, Δ3, hΔ3, hcp3⟩ :=
    getOrCreatePoint_spec σ hσ r2.2 ⟨0, 0, 0⟩ g2
  generalize hE3 : getOrCreatePoint σ r2.2 ⟨0, 0, 0⟩ = r3 at *
  obtain ⟨g4, hpcc4, hecc4, Δ4, hΔ4, hdir4⟩ :=
    getOrCreateDirection_spec r3.2 ⟨0, 0, 1⟩ g3 (by decide)
  generalize hE4 : getOrCreateDirection r3.2 ⟨0, 0, 1⟩ = r4 at *
  obtain ⟨g5, hpcc5, hecc5, Δ5, hΔ5, hdir5⟩ :=
    getOrCreateDirection_spec r4.2 ⟨1, 0, 0⟩ g4 (by decide)
  generalize hE5 : getOrCreateDirection r4.2 ⟨1, 0, 0⟩ = r5 at *
  obtain ⟨g6, hret6, hent6, hpc6, hec6, hnc6⟩ :=
    addEntity_spec r5.2 (fun i => Entity.axis2Placement3D i "" r3.1 r4.1 r5.1) g5
      (fun n => rfl) (fun n => rfl) (fun n => rfl) (fun n => rfl)
  generalize hE6 : addEntity r5.2 (fun i => Entity.axis2Placement3D i "" r3.1 r4.1 r5.1)
    = r6 at *
  obtain ⟨g7, hret7, hent7, hpc7, hec7, hnc7⟩ :=
    addEntity_spec r6.2
      (fun i => Entity.advancedBrepShapeRepresentation i "" [r2.1, r6.1] geomContextId) g6
      (fun n => rfl) (fun n => rfl) (fun n => rfl) (fun n => rfl)
  generalize hE7 : addEntity r6.2
    (fun i => Entity.advancedBrepShapeRepresentation i "" [r2.1, r6.1] geomContextId)
    = r7 at *
  obtain ⟨g8, hret8, hent8, hpc8, hec8, hnc8⟩ :=
    addEntity_spec r7.2 (fun i => Entity.shapeDefinitionRepresentation i pdsId r7.1) g7
      (fun n => rfl) (fun n => rfl) (fun n => rfl) (fun n => rfl)
  generalize hE8 : addEntity r7.2 (fun i => Entity.shapeDefinitionRepresentation i pdsId
    r7.1) = r8 at *
  obtain ⟨G1, G2, G3, G4, G5, G6, G7⟩ := g8
  obtain ⟨hcv, hce, haf, hsh, hpn⟩ := DeltaFace_countP hdf
  have hΔ3f : ∀ {p : Entity → Bool}, (∀ e, isCartesianPoint e = true → p e = false) →
      Δ3.countP p = 0 := fun hp => countP_zero_of (fun e he => hp e (hcp3 e he))
  have hents : r8.2.entities =
      rf.1.entities ++ ([Entity.closedShell rf.1.idCounter "" rf.2] ++
        ([Entity.manifoldSolidBrep r1.2.idCounter "" r1.1] ++ (Δ3 ++ (Δ4 ++ (Δ5 ++
        ([Entity.axis2Placement3D r5.2.idCounter "" r3.1 r4.1 r5.1] ++
        ([Entity.advancedBrepShapeRepresentation r6.2.idCounter "" [r2.1, r6.1]
          geomContextId] ++
        [Entity.shapeDefinitionRepresentation r7.2.idCounter pdsId r7.1]))))))) := by
    rw [hent8, hent7, hent6, hΔ5, hΔ4, hΔ3, hent2, hent1]
    simp [List.append_assoc]
  refine ⟨k, fl, ?_, ?_, hlen, ?_, ?_, ?_, G4, G7, G1, ?_⟩
  · rw [hents, List.filterMap_append, hsh]
    have hpre : (preludeState name).entities.filterMap shellFaces = [] := rfl
    rw [hpre]
    simp only [List.filterMap_append, List.filterMap_cons, List.filterMap_nil]
    rw [filterMap_none_of _ _ (fun e he => (cp_facts (hcp3 e he)).2.2.2.2.2.2.1),
      filterMap_none_of _ _ (fun e he => (dir_facts (hdir4 e he)).2.2.2.2.2.2.1),
      filterMap_none_of _ _ (fun e he => (dir_facts (hdir5 e he)).2.2.2.2.2.2.1)]
    simp [shellFaces, hacc]
  · rw [hents, List.filterMap_append, haf]
    have hpre : (preludeState name).entities.filterMap afId = [] := rfl
    rw [hpre]
    simp only [List.filterMap_append, List.filterMap_cons, List.filterMap_nil]
    rw [filterMap_none_of _ _ (fun e he => (cp_facts (hcp3 e he)).2.2.2.1),
      filterMap_none_of _ _ (fun e he => (dir_facts (hdir4 e he)).2.2.2.1),
      filterMap_none_of _ _ (fun e he => (dir_facts (hdir5 e he)).2.2.2.1)]
    simp [afId]
  · rw [hents, List.filterMap_append, hpn]
    have hpre : (preludeState name).entities.filterMap prodName = [name] := rfl
    rw [hpre]
    simp only [List.filterMap_append, List.filterMap_cons, List.filterMap_nil]
    rw [filterMap_none_of _ _ (fun e he => (cp_facts (hcp3 e he)).2.2.2.2.2.2.2),
      filterMap_none_of _ _ (fun e he => (dir_facts (hdir4 e he)).2.2.2.2.2.2.2),
      filterMap_none_of _ _ (fun e he => (dir_facts (hdir5 e he)).2.2.2.2.2.2.2)]
    simp [prodName]
  · rw [hents, List.countP_append, hcv]
    have hpre : (preludeState name).entities.countP isVertexPoint = 0 := rfl
    rw [hpre]
    simp only [List.countP_append]
    rw [hΔ3f (fun e he => (cp_facts he).2.1),
      countP_zero_of (fun e he => (dir_facts (hdir4 e he)).2.1),
      countP_zero_of (fun e he => (dir_facts (hdir5 e he)).2.1)]
    simp [List.countP_cons, isVertexPoint]
  · rw [hents, List.countP_append, hce]
    have hpre : (preludeState name).entities.countP isEdgeCurve = 0 := rfl
    rw [hpre]
    simp only [List.countP_append]
    rw [hΔ3f (fun e he => (cp_facts he).2.2.1),
      countP_zero_of (fun e he => (dir_facts (hdir4 e he)).2.2.1),
      countP_zero_of (fun e he => (dir_facts (hdir5 e he)).2.2.1)]
    simp [List.countP_cons, isEdgeCurve]
  · rw [G5]
    exact G6

/-! Scan-order sensitivity (the Go map iteration in getOrCreatePoint) and its
separation-based cure: when the coordinates the converter queries are pairwise
farther apart than twice the tolerance, each query has at most one cached
match, so every admissible scan order returns the same result. -/

theorem sqDist_quad (p a b : Vec) :
    sqDist a b ≤ 2 * sqDist a p + 2 * sqDist b p := by
  simp only [sqDist, Vec.sqLength, Vec.dot, vecSub_def]
  nlinarith [sq_nonneg (a.x - 2 * p.x + b.x), sq_nonneg (a.y - 2 * p.y + b.y),
    sq_nonneg (a.z - 2 * p.z + b.z)]

theorem lookupTol_mem {l : List (Vec × ℕ)} {p : Vec} {i : ℕ}
    (h : lookupTol l p = some i) :
    ∃ kv, kv ∈ l ∧ sqDist kv.1 p ≤ tolQ ^ 2 ∧ kv.2 = i := by
  induction l with
  | nil => simp [lookupTol] at h
  | cons e rest ih =>
    rw [lookupTol] at h
    by_cases hc : sqDist e.1 p ≤ tolQ ^ 2
    · rw [if_pos hc] at h
      exact ⟨e, List.mem_cons_self e rest, hc, by injection h⟩
    · rw [if_neg hc] at h
      obtain ⟨kv, hm, hM, hi⟩ := ih h
      exact ⟨kv, List.mem_cons_of_mem e hm, hM, hi⟩

theorem lookupTol_some_of {l : List (Vec × ℕ)} {p : Vec} {kv : Vec × ℕ}
    (hmem : kv ∈ l) (hM : sqDist kv.1 p ≤ tolQ ^ 2)
    (hu : ∀ a ∈ l, sqDist a.1 p ≤ tolQ ^ 2 → a = kv) :
    lookupTol l p = some kv.2 := by
  induction l with
  | nil => cases hmem
  | cons e rest ih =>
    rw [lookupTol]
    by_cases hc : sqDist e.1 p ≤ tolQ ^ 2
    · rw [if_pos hc, hu e (List.mem_cons_self e rest) hc]
    · rw [if_neg hc]
      rcases List.mem_cons.mp hmem with h1 | h1
      · exact absurd (h1 ▸ hM) hc
      · exact ih h1 (fun a ha => hu a (List.mem_cons_of_mem e ha))

theorem lookupTol_unique {l : List (Vec × ℕ)} {p : Vec}
    (hu : ∀ a ∈ l, ∀ b ∈ l, sqDist a.1 p ≤ tolQ ^ 2 → sqDist b.1 p ≤ tolQ ^ 2 → a = b)
    {l' : List (Vec × ℕ)} (hperm : l'.Perm l) : lookupTol l' p = lookupTol l p := by
  cases hr : lookupTol l p with
  | none =>
    rw [lookupTol_eq_none_iff] at hr ⊢
    exact fun e he => hr e (hperm.mem_iff.mp he)
  | some i =>
    obtain ⟨kv, hkv, hM, hid⟩ := lookupTol_mem hr
    rw [← hid]
    exact lookupTol_some_of (hperm.mem_iff.mpr hkv) hM
      (fun a ha hMa => hu a (hperm.mem_iff.mp ha) kv hkv hMa hM)

theorem tolMatch_unique {P : List Vec} (hsep : SepSet P) {l : List (Vec × ℕ)}
    (hnd : (l.map Prod.fst).Nodup) (hin : ∀ q ∈ l.map Prod.fst, q ∈ P) (p : Vec) :
    ∀ a ∈ l, ∀ b ∈ l, sqDist a.1 p ≤ tolQ ^ 2 → sqDist b.1 p ≤ tolQ ^ 2 → a = b := by
  intro a ha b hb hMa hMb
  have hkey : a.1 = b.1 := by
    by_contra hne
    have h1 : a.1 ∈ P := hin _ (List.mem_map.mpr ⟨a, ha, rfl⟩)
    have h2 : b.1 ∈ P := hin _ (List.mem_map.mpr ⟨b, hb, rfl⟩)
    have hs := hsep a.1 h1 b.1 h2 hne
    have hq := sqDist_quad p a.1 b.1
    nlinarith [hs, hq, hMa, hMb]
  exact Prod.ext hkey
    (keysNodup_eq_of_mem l a.1 a.2 b.2 hnd (by simpa using ha)
      (by rw [hkey]; simpa using hb))

theorem PtsIn_congr {P : List Vec} {s₁ s₂ : ConvState}
    (h : s₁.pointCache = s₂.pointCache) (hp : PtsIn P s₁) : PtsIn P s₂ := by
  unfold PtsIn at *
  rw [← h]
  exact hp

theorem pc_addEntity (s : ConvState) (f : ℕ → Entity) :
    (addEntity s f).2.pointCache = s.pointCache := rfl

theorem pc_dir (s : ConvState) (d : Vec) :
    (getOrCreateDirection s d).2.pointCache = s.pointCache := by
  cases hl : lookupExact s.normalCache (canonDir d) <;>
    simp [getOrCreateDirection, hl, addEntity]

theorem gcp_sepinv (σ : ScanOrder) (hσ : ∀ l, List.Perm (σ l) l) {P : List Vec}
    (hsep : SepSet P) (s : ConvState) (p : Vec) (h : PtsIn P s) (hp : p ∈ P) :
    getOrCreatePoint σ s p = getOrCreatePoint scanInsertion s p ∧
    PtsIn P (getOrCreatePoint σ s p).2 := by
  obtain ⟨hnd, hin⟩ := h
  have hu := tolMatch_unique hsep hnd hin p
  have hlook : lookupTol (σ s.pointCache) p = lookupTol s.pointCache p :=
    lookupTol_unique hu (hσ s.pointCache)
  have heq : getOrCreatePoint σ s p = getOrCreatePoint scanInsertion s p := by
    simp only [getOrCreatePoint, scanInsertion, hlook]
  refine ⟨heq, ?_⟩
  rw [heq]
  cases hl : lookupTol s.pointCache p with
  | some i =>
    simp only [getOrCreatePoint, scanInsertion, hl]
    exact ⟨hnd, hin⟩
  | none =>
    simp only [getOrCreatePoint, scanInsertion, hl, addEntity]
    have hnomatch := (lookupTol_eq_none_iff s.pointCache p).mp hl
    constructor
    · rw [List.map_append, List.nodup_append]
      refine ⟨hnd, List.nodup_singleton _, ?_⟩
      intro q hq hq'
      rw [List.map_singleton, List.mem_singleton] at hq'
      obtain ⟨kv, hkv, hfst⟩ := List.mem_map.mp hq
      apply hnomatch kv hkv
      rw [hfst, hq']
      rw [sqDist_self]
      positivity
    · intro q hq
      rw [List.map_append] at hq
      rcases List.mem_append.mp hq with h1 | h1
      · exact hin q h1
      · rw [List.map_singleton, List.mem_singleton] at h1
        rw [h1]
        exact hp

theorem cvp_sep (σ : ScanOrder) (hσ : ∀ l, List.Perm (σ l) l) {P : List Vec}
    (hsep : SepSet P) (s : ConvState) (p : Vec) (h : PtsIn P s) (hp : p ∈ P) :
    createVertexPoint σ s p = createVertexPoint scanInsertion s p ∧
    PtsIn P (createVertexPoint σ s p).2 := by
  obtain ⟨heq, hinv⟩ := gcp_sepinv σ hσ hsep s p h hp
  constructor
  · simp only [createVertexPoint, heq]
  · exact PtsIn_congr rfl hinv

theorem cap_sep (σ : ScanOrder) (hσ : ∀ l, List.Perm (σ l) l) {P : List Vec}
    (hsep : SepSet P) (s : ConvState) (o za xa : Vec) (h : PtsIn P s) (ho : o ∈ P) :
    createAxis2Placement σ s o za xa = createAxis2Placement scanInsertion s o za xa ∧
    PtsIn P (createAxis2Placement σ s o za xa).2 := by
  obtain ⟨heq, hinv⟩ := gcp_sepinv σ hσ hsep s o h ho
  constructor
  · simp only [createAxis2Placement, heq]
  · refine PtsIn_congr ?_ hinv
    show (getOrCreatePoint σ s o).2.pointCache
      = (createAxis2Placement σ s o za xa).2.pointCache
    simp only [createAxis2Placement, pc_addEntity, pc_dir]

theorem cec_sep (σ : ScanOrder) (hσ : ∀ l, List.Perm (σ l) l) {P : List Vec}
    (hsep : SepSet P) (s : ConvState) (v1 v2 : Vec) (h : PtsIn P s)
    (h1 : v1 ∈ P) (h2 : v2 ∈ P) :
    createEdgeCurve σ s v1 v2 = createEdgeCurve scanInsertion s v1 v2 ∧
    PtsIn P (createEdgeCurve σ s v1 v2).2 := by
  cases hl : lookupExact s.edgeCache (newEdgeKey v1 v2) with
  | some i =>
    simp only [createEdgeCurve, hl]
    exact ⟨by trivial, h⟩
  | none =>
    obtain ⟨e1, i1⟩ := cvp_sep σ hσ hsep s v1 h h1
    obtain ⟨e2, i2⟩ := cvp_sep σ hσ hsep (createVertexPoint σ s v1).2 v2 i1 h2
    rw [e1] at e2 i2
    rw [e2] at i2
    obtain ⟨e3, i3⟩ := gcp_sepinv σ hσ hsep
      (createVertexPoint scanInsertion ((createVertexPoint scanInsertion s v1).2)
        v2).2 v1 i2 h1
    constructor
    · simp only [createEdgeCurve, hl, e1, e2, e3]
    · have hpc : (getOrCreatePoint σ
          (createVertexPoint scanInsertion ((createVertexPoint scanInsertion s v1).2)
            v2).2 v1).2.pointCache
          = (createEdgeCurve σ s v1 v2).2.pointCache := by
        simp only [createEdgeCurve, hl, e1, e2]
        simp only [pc_addEntity, pc_dir]
      exact PtsIn_congr hpc i3

theorem ctf_sep (σ : ScanOrder) (hσ : ∀ l, List.Perm (σ l) l) {P : List Vec}
    (hsep : SepSet P) (s : ConvState) (t : Triangle) (h : PtsIn P s)
    (ht : t.v0 ∈ P ∧ t.v1 ∈ P ∧ t.v2 ∈ P) :
    createTriangleFace σ s t = createTriangleFace scanInsertion s t ∧
    PtsIn P (createTriangleFace σ s t).2 := by
  obtain ⟨h0, h1, h2⟩ := ht
  obtain ⟨e1, i1⟩ := cec_sep σ hσ hsep s t.v0 t.v1 h h0 h1
  obtain ⟨e2, i2⟩ := cec_sep σ hσ hsep (createEdgeCurve σ s t.v0 t.v1).2 t.v1 t.v2 i1 h1 h2
  rw [e1] at e2 i2
  rw [e2] at i2
  obtain ⟨e3, i3⟩ := cec_sep σ hσ hsep
    (createEdgeCurve scanInsertion ((createEdgeCurve scanInsertion s t.v0 t.v1).2)
      t.v1 t.v2).2 t.v2 t.v0 i2 h2 h0
  rw [e3] at i3
  simp only [createTriangleFace, e1, e2, e3]
  generalize hR : createEdgeCurve scanInsertion
    (createEdgeCurve scanInsertion (createEdgeCurve scanInsertion s t.v0 t.v1).2
      t.v1 t.v2).2 t.v2 t.v0 = R at *
  generalize hA1 : addEntity R.2 (fun i => Entity.orientedEdge i ""
    (createEdgeCurve scanInsertion s t.v0 t.v1).1 true) = A1
  generalize hA2 : addEntity A1.2 (fun i => Entity.orientedEdge i ""
    (createEdgeCurve scanInsertion (createEdgeCurve scanInsertion s t.v0 t.v1).2
      t.v1 t.v2).1 true) = A2
  generalize hA3 : addEntity A2.2 (fun i => Entity.orientedEdge i "" R.1 true) = A3
  generalize hA4 : addEntity A3.2 (fun i => Entity.edgeLoop i "" [A1.1, A2.1, A3.1])
    = A4
  generalize hA5 : addEntity A4.2 (fun i => Entity.faceOuterBound i "" A4.1 true)
    = A5
  have hpc5 : R.2.pointCache = A5.2.pointCache := by
    rw [← hA5, pc_addEntity, ← hA4, pc_addEntity, ← hA3, pc_addEntity, ← hA2,
      pc_addEntity, ← hA1, pc_addEntity]
  have i5 : PtsIn P A5.2 := PtsIn_congr hpc5 i3
  obtain ⟨e4, i4⟩ := cap_sep σ hσ hsep A5.2 t.v0
    ((t.v1 - t.v0).cross (t.v2 - t.v0)) (t.v1 - t.v0) i5 h0
  rw [e4]
  rw [e4] at i4
  refine ⟨rfl, ?_⟩
  refine PtsIn_congr ?_ i4
  simp only [pc_addEntity]

theorem convertFaces_sep (σ : ScanOrder) (hσ : ∀ l, List.Perm (σ l) l) {P : List Vec}
    (hsep : SepSet P) (ts : List Triangle)
    (hts : ∀ t ∈ ts, t.v0 ∈ P ∧ t.v1 ∈ P ∧ t.v2 ∈ P) :
    ∀ s acc, PtsIn P s →
      convertFaces σ s acc ts = convertFaces scanInsertion s acc ts ∧
      PtsIn P (convertFaces σ s acc ts).1 := by
  induction ts with
  | nil => exact fun s acc h => ⟨rfl, h⟩
  | cons t ts ih =>
    intro s acc h
    have ht := hts t (List.mem_cons_self t ts)
    have hts' := fun t' ht' => hts t' (List.mem_cons_of_mem t ht')
    cases hdeg : t.degenerate epsQ with
    | true =>
      have hstep : ∀ (σ' : ScanOrder),
          convertFaces σ' s acc (t :: ts) = convertFaces σ' s acc ts :=
        fun σ' => by rw [convertFaces, if_pos hdeg]
      rw [hstep σ, hstep scanInsertion]
      exact ih hts' s acc h
    | false =>
      have hstep : ∀ (σ' : ScanOrder), convertFaces σ' s acc (t :: ts) =
          convertFaces σ' (createTriangleFace σ' s t).2
            (acc ++ [(createTriangleFace σ' s t).1]) ts :=
        fun σ' => by rw [convertFaces, if_neg (by simp [hdeg])]
      obtain ⟨ec, ic⟩ := ctf_sep σ hσ hsep s t h ht
      rw [ec] at ic
      rw [hstep σ, hstep scanInsertion, ec]
      exact ih hts' (createTriangleFace scanInsertion s t).2
        (acc ++ [(createTriangleFace scanInsertion s t).1]) ic

theorem convertMeshO_sep (σ : ScanOrder) (hσ : ∀ l, List.Perm (σ l) l)
    (mesh : List Triangle) (name : String) (hsep : SepSet (meshPoints mesh)) :
    convertMeshO σ mesh name = convertMeshO scanInsertion mesh name := by
  have hpre : PtsIn (meshPoints mesh) (preludeState name) := by
    constructor
    · exact List.nodup_nil
    · intro q hq
      have : (preludeState name).pointCache = [] := rfl
      rw [this] at hq
      cases hq
  have hts : ∀ t ∈ mesh, t.v0 ∈ meshPoints mesh ∧ t.v1 ∈ meshPoints mesh ∧
      t.v2 ∈ meshPoints mesh := by
    intro t ht
    refine ⟨?_, ?_, ?_⟩ <;>
      exact List.mem_append_left _ (List.mem_flatMap.mpr ⟨t, ht, by simp⟩)
  obtain ⟨heqf, hinvf⟩ :=
    convertFaces_sep σ hσ hsep mesh hts (preludeState name) [] hpre
  rw [heqf] at hinvf
  have horig : (⟨0, 0, 0⟩ : Vec) ∈ meshPoints mesh :=
    List.mem_append_right _ (List.mem_singleton.mpr rfl)
  have hbrep : PtsIn (meshPoints mesh) (addEntity (addEntity
      (convertFaces scanInsertion (preludeState name) [] mesh).1
      (fun i => Entity.closedShell i ""
        (convertFaces scanInsertion (preludeState name) [] mesh).2)).2
      (fun i => Entity.manifoldSolidBrep i ""
        (addEntity (convertFaces scanInsertion (preludeState name) [] mesh).1
          (fun i => Entity.closedShell i ""
            (convertFaces scanInsertion (preludeState name) [] mesh).2)).1)).2 := by
    refine PtsIn_congr ?_ hinvf
    simp only [pc_addEntity]
  obtain ⟨heqp, _⟩ := gcp_sepinv σ hσ hsep _ ⟨0, 0, 0⟩ hbrep horig
  simp only [convertMeshO, heqf, heqp]

/-! Last glue lemmas. -/

theorem scanInsertion_perm : ∀ l, List.Perm (scanInsertion l) l :=
  fun l => List.Perm.refl l

theorem scanReverse_perm : ∀ l, List.Perm (scanReverse l) l :=
  fun l => List.reverse_perm l

theorem countP_af_len (l : List Entity) :
    l.countP isAdvancedFace = (l.filterMap afId).length := by
  induction l with
  | nil => rfl
  | cons e rest ih =>
    rw [List.countP_cons, List.filterMap_cons]
    cases e <;> simp [isAdvancedFace, afId, ih]

theorem convertFaces_filter (σ : ScanOrder) (ts : List Triangle) :
    ∀ s acc, convertFaces σ s acc (ts.filter (fun t => !t.degenerate epsQ)) =
      convertFaces σ s acc ts := by
  induction ts with
  | nil => intro s acc; rfl
  | cons t ts ih =>
    intro s acc
    rw [List.filter_cons]
    cases hdeg : t.degenerate epsQ with
    | true =>
      rw [show convertFaces σ s acc (t :: ts) = convertFaces σ s acc ts from
        by rw [convertFaces, if_pos hdeg]]
      simp only [hdeg, Bool.not_true]
      rw [if_neg (by simp)]
      exact ih s acc
    | false =>
      simp only [hdeg, Bool.not_false]
      rw [if_pos trivial]
      rw [convertFaces, if_neg (by simp [hdeg]), convertFaces, if_neg (by simp [hdeg])]
      exact ih _ _

theorem convertMeshO_filter (σ : ScanOrder) (mesh : List Triangle) (name : String) :
    convertMeshO σ (optimizeMesh mesh) name = convertMeshO σ mesh name := by
  simp only [convertMeshO, optimizeMesh, convertFaces_filter]

/-! The claims. -/

/-- C1: For every input triangle sequence and product name, ConvertMesh emits
exactly one ADVANCED_FACE entity per non-degenerate input triangle, and the
single CLOSED_SHELL entity's face list holds exactly those face ids (the
ADVANCED_FACE ids in creation = input-triangle order), each exactly once. -/
theorem C1_faces_and_shell (mesh : List Triangle) (name : String) :
    ∃ fl, (convertMesh mesh name).filterMap shellFaces = [fl] ∧
      (convertMesh mesh name).filterMap afId = fl ∧
      (convertMesh mesh name).countP isAdvancedFace =
        (mesh.filter (fun t => !t.degenerate epsQ)).length ∧
      fl.Nodup := by
  obtain ⟨k, fl, h1, h2, h3, _, _, _, _, _, h9, _⟩ :=
    convertMeshO_master scanInsertion scanInsertion_perm mesh name
  refine ⟨fl, h1, h2, ?_, ?_⟩
  · rw [countP_af_len, (show (convertMesh mesh name).filterMap afId = fl from h2), h3]
  · have hnd : ((convertMesh mesh name).map Entity.eid).Nodup := by
      rw [(show (convertMesh mesh name).map Entity.eid =
        List.range' 1 (convertMesh mesh name).length from h9)]
      exact List.nodup_range' _ _
    have h := filterMap_ids_nodup afId (fun e i hh => afId_eid hh) _ hnd
    rw [(show (convertMesh mesh name).filterMap afId = fl from h2)] at h
    exact h

/-- C2: In the output of ConvertMesh no two EDGE_CURVE entities carry the same
unordered endpoint pair (their canonical keys are pairwise distinct), the key
of an unordered pair is symmetric in its endpoints, and every key is sorted by
the lexicographic order on (x,y,z). -/
theorem C2_edge_dedup (mesh : List Triangle) (name : String) :
    (convertMesh mesh name).Pairwise (fun e₁ e₂ => ∀ k₁ k₂,
      ecKeyId e₁ = some k₁ → ecKeyId e₂ = some k₂ → k₁.1 ≠ k₂.1) ∧
    (∀ p q : Vec, newEdgeKey p q = newEdgeKey q p) ∧
    (∀ p q : Vec, lexLt (newEdgeKey p q).v2 (newEdgeKey p q).v1 = false) := by
  obtain ⟨_, _, _, _, _, _, _, _, _, _, _, h10⟩ :=
    convertMeshO_master scanInsertion scanInsertion_perm mesh name
  exact ⟨pairwise_of_filterMap_keys_nodup ecKeyId Prod.fst _ h10,
    newEdgeKey_comm, newEdgeKey_sorted⟩

/-- C3: Any two distinct CARTESIAN_POINT entities in the output of ConvertMesh
have coordinates at Euclidean distance strictly greater than the dedup
tolerance 1e-6. -/
theorem C3_point_separation (mesh : List Triangle) (name : String) :
    (convertMesh mesh name).Pairwise (fun e₁ e₂ => ∀ p q,
      cpCoords e₁ = some p → cpCoords e₂ = some q →
        ((tolQ : ℚ) : ℝ) < Real.sqrt ((sqDist p q : ℚ) : ℝ)) := by
  obtain ⟨_, _, _, _, _, _, _, _, h7, _, _, _⟩ :=
    convertMeshO_master scanInsertion scanInsertion_perm mesh name
  refine h7.imp ?_
  intro a b hr p q hp hq
  have h := hr p q hp hq
  have h0 : (0 : ℝ) ≤ ((tolQ : ℚ) : ℝ) := by norm_num [tolQ]
  rw [show ((tolQ : ℚ) : ℝ) < Real.sqrt ((sqDist p q : ℚ) : ℝ) ↔
      ((tolQ : ℚ) : ℝ) ^ 2 < ((sqDist p q : ℚ) : ℝ) from Real.lt_sqrt h0]
  exact_mod_cast h

/-- C4 (amended): ConvertMesh is deterministic in the triangle order only up
to the unspecified Go map iteration order of the point cache; whenever the
queried coordinates (mesh vertices and the world origin) are pairwise farther
apart than twice the dedup tolerance, every admissible scan order yields the
insertion-order result.  The unconditional claim is refuted by
C4_scan_order_cex. -/
theorem C4_scan_order (σ : ScanOrder) (hσ : ∀ l, List.Perm (σ l) l)
    (mesh : List Triangle) (name : String) (hsep : SepSet (meshPoints mesh)) :
    convertMeshO σ mesh name = convertMesh mesh name :=
  convertMeshO_sep σ hσ mesh name hsep

/-- C4 witness: the separation hypothesis holds for the two-triangle demo
mesh, so the reversed scan order reproduces the insertion-order output. -/
theorem C4_scan_order_witness :
    convertMeshO scanReverse [demoTriA, demoTriB] "demo" =
      convertMesh [demoTriA, demoTriB] "demo" :=
  C4_scan_order scanReverse scanReverse_perm [demoTriA, demoTriB] "demo"
    (by unfold SepSet; decide)

/-- C4 counterexample: with a query point within tolerance of two cached
points at once, the entity list depends on the scan order of the point cache,
so two runs of ConvertMesh on the same triangles need not agree. -/
theorem C4_scan_order_cex :
    convertMeshO scanReverse [demoTriA, demoTriC, demoTriD] "demo" ≠
      convertMeshO scanInsertion [demoTriA, demoTriC, demoTriD] "demo" := by
  decide

/-- C5: Every DIRECTION entity in the output of ConvertMesh stores a nonzero
representative, whose exactly-normalized direction ratios (what the source
serializes) have Euclidean norm exactly 1 — in particular within 1e-6 of 1. -/
theorem C5_direction_unit (mesh : List Triangle) (name : String) (e : Entity)
    (he : e ∈ convertMesh mesh name) (v : Vec) (hv : dirVec e = some v) :
    euclidNorm3 (dirRatios v) = 1 := by
  obtain ⟨_, _, _, _, _, _, _, _, _, h8, _, _⟩ :=
    convertMeshO_master scanInsertion scanInsertion_perm mesh name
  exact euclidNorm3_dirRatios v (h8 e he v hv)

/-- C5 witness: the world placement z-axis DIRECTION of the empty mesh. -/
theorem C5_direction_unit_witness : euclidNorm3 (dirRatios ⟨0, 0, 1⟩) = 1 :=
  C5_direction_unit [] "demo" (Entity.direction 16 "" ⟨0, 0, 1⟩) (by decide)
    ⟨0, 0, 1⟩ rfl

/-- C6: Pre-filtering with OptimizeMesh does not change ConvertMesh's output,
OptimizeMesh is idempotent, and therefore the WriteMesh path (which optimizes
before converting) emits exactly header, direct conversion and footer. -/
theorem C6_optimize_equiv (mesh : List Triangle) (name : String) (w : WriterInfo) :
    convertMesh (optimizeMesh mesh) name = convertMesh mesh name ∧
    optimizeMesh (optimizeMesh mesh) = optimizeMesh mesh ∧
    writeMeshStr w mesh name =
      writeHeader w ++ (writeData (convertMesh mesh name) ++ writeFooter) := by
  have h1 : convertMesh (optimizeMesh mesh) name = convertMesh mesh name :=
    convertMeshO_filter scanInsertion mesh name
  refine ⟨h1, ?_, ?_⟩
  · simp [optimizeMesh, List.filter_filter]
  · rw [writeMeshStr, h1]

/-- C7: For the two spec triangles sharing one edge, ConvertMesh emits exactly
4 CARTESIAN_POINT, 5 EDGE_CURVE and 2 ADVANCED_FACE entities. -/
theorem C7_two_triangles :
    (convertMesh [demoTriA, demoTriB] "demo").countP isCartesianPoint = 4 ∧
    (convertMesh [demoTriA, demoTriB] "demo").countP isEdgeCurve = 5 ∧
    (convertMesh [demoTriA, demoTriB] "demo").countP isAdvancedFace = 2 := by
  refine ⟨by decide, by decide, by decide⟩

/-- C8: With author "Jane" and empty organization the writer carries
('Jane') and ('Unknown') in the FILE_NAME header line; with both empty the
defaults are 'sdfx User' and 'sdfx Organization'; product name "Widget" is
kept as is and lands in the PRODUCT entity's name slot. -/
theorem C8_header_options :
    (∀ fn ts, (saveOptsWriter fn ts "Jane" "").authorName = "Jane" ∧
      (saveOptsWriter fn ts "Jane" "").orgName = "Unknown" ∧
      (saveOptsWriter fn ts "" "").authorName = "sdfx User" ∧
      (saveOptsWriter fn ts "" "").orgName = "sdfx Organization") ∧
    (writeHeaderLines (saveOptsWriter "model.step" "2024" "Jane" ""))[3]? = some
      "FILE_NAME('model.step','2024',('Jane'),('Unknown'),'sdfx STEP Writer','sdfx','');" ∧
    defaultProductName "Widget" = "Widget" ∧
    (∀ mesh, (convertMesh mesh "Widget").filterMap prodName = ["Widget"]) := by
  refine ⟨fun fn ts => ⟨rfl, rfl, rfl, rfl⟩, rfl, rfl, ?_⟩
  intro mesh
  obtain ⟨_, _, _, _, _, h4, _, _, _, _, _, _⟩ :=
    convertMeshO_master scanInsertion scanInsertion_perm mesh "Widget"
  exact h4

/-- C9: A mesh with no non-degenerate triangle yields the single CLOSED_SHELL
with an empty face list, WriteMesh emits the same file as for the empty mesh,
and under the default product name that file is exactly the header followed by
the fixed 20-entity DATA section and footer: a syntactically valid STEP file,
not an error. -/
theorem C9_empty_mesh (w : WriterInfo) (mesh : List Triangle) (name : String)
    (h : mesh.filter (fun t => !t.degenerate epsQ) = []) :
    (convertMesh mesh name).filterMap shellFaces = [[]] ∧
    writeMeshStr w mesh name = writeMeshStr w [] name ∧
    writeMeshStr w mesh "sdfx_model" = writeHeader w ++ emptyShellData := by
  obtain ⟨k, fl, h1, _, h3, _, _, _, _, _, _, _⟩ :=
    convertMeshO_master scanInsertion scanInsertion_perm mesh name
  have hfl : fl = [] := List.length_eq_zero.mp (by rw [h3, h, List.length_nil])
  have hopt : optimizeMesh mesh = [] := h
  refine ⟨?_, ?_, ?_⟩
  · rw [hfl] at h1
    exact h1
  · rw [writeMeshStr, writeMeshStr, hopt]
    rfl
  · rw [writeMeshStr, hopt]
    have hdata : writeData (convertMesh [] "sdfx_model") ++ writeFooter =
        emptyShellData := by
      apply stringEq_of_listEqChar
      decide
    rw [← hdata]

/-- C9 witness: a single degenerate triangle behaves as the empty mesh. -/
theorem C9_empty_mesh_witness :
    (convertMesh [degenTri] "n").filterMap shellFaces = [[]] ∧
    writeMeshStr (newWriterInfo "f" "t") [degenTri] "n" =
      writeMeshStr (newWriterInfo "f" "t") [] "n" ∧
    writeMeshStr (newWriterInfo "f" "t") [degenTri] "sdfx_model" =
      writeHeader (newWriterInfo "f" "t") ++ emptyShellData :=
  C9_empty_mesh (newWriterInfo "f" "t") [degenTri] "n" (by decide)

/-- C10: VERTEX_POINT entities are never deduplicated — every cache-missing
edge creates two, so their count is twice the EDGE_CURVE count — while the
CARTESIAN_POINT they reference is: in the two-triangle demo the vertex
(1,0,0) yields one CARTESIAN_POINT (id 15) and three VERTEX_POINTs all
referencing id 15. -/
theorem C10_vertex_points :
    (∀ mesh name, (convertMesh mesh name).countP isVertexPoint =
      2 * (convertMesh mesh name).countP isEdgeCurve) ∧
    (convertMesh [demoTriA, demoTriB] "demo").countP
      (fun e => cpCoords e = some ⟨1, 0, 0⟩) = 1 ∧
    (convertMesh [demoTriA, demoTriB] "demo").countP
      (fun e => vpGeom e = some 15) = 3 ∧
    Entity.cartesianPoint 15 "" ⟨1, 0, 0⟩ ∈ convertMesh [demoTriA, demoTriB] "demo" := by
  refine ⟨?_, by decide, by decide, by decide⟩
  intro mesh name
  obtain ⟨k, _, _, _, _, _, h5, h6, _, _, _, _⟩ :=
    convertMeshO_master scanInsertion scanInsertion_perm mesh name
  show (convertMeshO scanInsertion mesh name).countP isVertexPoint =
    2 * (convertMeshO scanInsertion mesh name).countP isEdgeCurve
  rw [h5, h6]

end Step
